import Mathlib

/-!
Verification development for the multi-provider quote resolution engine
(backend/app/services/stock_service.py and crypto_service.py, with the
schemas in backend/app/schemas).

Shallow embedding conventions:
* A serialized cache payload (the bytes produced by orjson.dumps of a
  Python dict) is modelled as a `Json` value; a JSON object is modelled
  as its key lookup function, exactly the dict it came from.
* A datetime serialized by pydantic model_dump(mode="json") becomes an
  ISO-8601 string uniquely determined by the instant; the constructor
  parses it back.  We represent that string by the `Json.time`
  constructor carrying the instant (a Nat timestamp), which captures the
  injective encode / exact decode pair without modelling the ISO text.
* Python floats are modelled as rationals, ints as Int, non-negative
  validated ints as Nat.
* The asyncio race in get_quote is modelled by an explicit schedule: the
  list of "done" batches successively returned by asyncio.wait, each
  batch listing the completed attempt indices in set-iteration order.
  The unspecified ordering of list(pending) is determinized to preserve
  the relative order of the remaining tasks; the properties proved below
  do not depend on that choice.
-/

/-- Model of a JSON value / orjson-serializable Python value.  An object
is its dict, i.e. the lookup function from keys to values. -/
inductive Json where
  | null : Json
  | str (s : String) : Json
  | num (q : ℚ) : Json
  | int (n : Int) : Json
  | time (t : Nat) : Json
  | arr (elems : List Json) : Json
  | obj (get : String → Option Json) : Json

/-- StockQuote pydantic model (backend/app/schemas/stock.py).  Optional
fields default to None. -/
structure StockQuote where
  symbol : String
  name : Option String := none
  logo_url : Option String := none
  price : ℚ
  change : ℚ
  change_percent : ℚ
  volume : Nat
  market_cap : Option ℚ := none
  high_52w : Option ℚ := none
  low_52w : Option ℚ := none
  change_percent_week : Option ℚ := none
  change_percent_month : Option ℚ := none
  change_percent_year : Option ℚ := none
  pre_market_price : Option ℚ := none
  pre_market_change : Option ℚ := none
  pre_market_change_percent : Option ℚ := none
  post_market_price : Option ℚ := none
  post_market_change : Option ℚ := none
  post_market_change_percent : Option ℚ := none
  market_state : Option String := none
  futures_symbol : Option String := none
  source : String
  updated_at : Nat
  deriving Repr, DecidableEq

/-- CryptoQuote pydantic model (backend/app/schemas/crypto.py). -/
structure CryptoQuote where
  symbol : String
  name : String
  logo_url : Option String := none
  price : ℚ
  change_24h : ℚ
  change_percent_24h : ℚ
  volume_24h : ℚ
  market_cap : ℚ
  rank : Option Int := none
  change_percent_7d : Option ℚ := none
  change_percent_30d : Option ℚ := none
  change_percent_1y : Option ℚ := none
  ath : Option ℚ := none
  ath_change_percent : Option ℚ := none
  source : String
  updated_at : Nat
  deriving Repr, DecidableEq

/-- The dict produced by StockQuote.model_dump(mode="json"): the override
in backend/app/schemas/stock.py defaults exclude_none=True, so fields
holding None are absent from the serialized dict. -/
def dumpStockQuoteMap (q : StockQuote) : String → Option Json := fun k =>
    if k = "symbol" then some (Json.str q.symbol)
    else if k = "name" then q.name.map Json.str
    else if k = "logo_url" then q.logo_url.map Json.str
    else if k = "price" then some (Json.num q.price)
    else if k = "change" then some (Json.num q.change)
    else if k = "change_percent" then some (Json.num q.change_percent)
    else if k = "volume" then some (Json.int (q.volume : Int))
    else if k = "market_cap" then q.market_cap.map Json.num
    else if k = "high_52w" then q.high_52w.map Json.num
    else if k = "low_52w" then q.low_52w.map Json.num
    else if k = "change_percent_week" then q.change_percent_week.map Json.num
    else if k = "change_percent_month" then q.change_percent_month.map Json.num
    else if k = "change_percent_year" then q.change_percent_year.map Json.num
    else if k = "pre_market_price" then q.pre_market_price.map Json.num
    else if k = "pre_market_change" then q.pre_market_change.map Json.num
    else if k = "pre_market_change_percent" then q.pre_market_change_percent.map Json.num
    else if k = "post_market_price" then q.post_market_price.map Json.num
    else if k = "post_market_change" then q.post_market_change.map Json.num
    else if k = "post_market_change_percent" then q.post_market_change_percent.map Json.num
    else if k = "market_state" then q.market_state.map Json.str
    else if k = "futures_symbol" then q.futures_symbol.map Json.str
    else if k = "source" then some (Json.str q.source)
    else if k = "updated_at" then some (Json.time q.updated_at)
    else none

/-- Serialized cache payload of a StockQuote as written by
StockService._cache_quote: orjson.dumps(quote.model_dump(mode="json")). -/
def dumpStockQuote (q : StockQuote) : Json :=
  Json.obj (dumpStockQuoteMap q)

/-- Decode a required string field (pydantic rejects anything else). -/
def decStr : Option Json → Option String
  | some (Json.str s) => some s
  | _ => none

/-- Decode a required float field. -/
def decNum : Option Json → Option ℚ
  | some (Json.num q) => some q
  | _ => none

/-- Decode a required non-negative int field (the ge=0 validator). -/
def decNat : Option Json → Option Nat
  | some (Json.int n) => n.toNat'
  | _ => none

/-- Decode a required datetime field. -/
def decTime : Option Json → Option Nat
  | some (Json.time t) => some t
  | _ => none

/-- Decode an optional string field: absent or null means None. -/
def decOptStr : Option Json → Option (Option String)
  | none => some none
  | some Json.null => some none
  | some (Json.str s) => some (some s)
  | _ => none

/-- Decode an optional float field: absent or null means None. -/
def decOptNum : Option Json → Option (Option ℚ)
  | none => some none
  | some Json.null => some none
  | some (Json.num q) => some (some q)
  | _ => none

/-- Decode an optional int field: absent or null means None. -/
def decOptInt : Option Json → Option (Option Int)
  | none => some none
  | some Json.null => some none
  | some (Json.int n) => some (some n)
  | _ => none

/-- Rehydration of a cached StockQuote payload: orjson.loads followed by
the pydantic constructor StockQuote(**data).  Returns none exactly when
the Python code would raise (orjson decode error or pydantic validation
error), which the caller in get_quote does not guard. -/
def parseStockQuote : Json → Option StockQuote
  | Json.obj m =>
    match decStr (m "symbol") with
    | none => none
    | some symbol =>
    match decOptStr (m "name") with
    | none => none
    | some name =>
    match decOptStr (m "logo_url") with
    | none => none
    | some logo_url =>
    match decNum (m "price") with
    | none => none
    | some price =>
    match decNum (m "change") with
    | none => none
    | some change =>
    match decNum (m "change_percent") with
    | none => none
    | some change_percent =>
    match decNat (m "volume") with
    | none => none
    | some volume =>
    match decOptNum (m "market_cap") with
    | none => none
    | some market_cap =>
    match decOptNum (m "high_52w") with
    | none => none
    | some high_52w =>
    match decOptNum (m "low_52w") with
    | none => none
    | some low_52w =>
    match decOptNum (m "change_percent_week") with
    | none => none
    | some change_percent_week =>
    match decOptNum (m "change_percent_month") with
    | none => none
    | some change_percent_month =>
    match decOptNum (m "change_percent_year") with
    | none => none
    | some change_percent_year =>
    match decOptNum (m "pre_market_price") with
    | none => none
    | some pre_market_price =>
    match decOptNum (m "pre_market_change") with
    | none => none
    | some pre_market_change =>
    match decOptNum (m "pre_market_change_percent") with
    | none => none
    | some pre_market_change_percent =>
    match decOptNum (m "post_market_price") with
    | none => none
    | some post_market_price =>
    match decOptNum (m "post_market_change") with
    | none => none
    | some post_market_change =>
    match decOptNum (m "post_market_change_percent") with
    | none => none
    | some post_market_change_percent =>
    match decOptStr (m "market_state") with
    | none => none
    | some market_state =>
    match decOptStr (m "futures_symbol") with
    | none => none
    | some futures_symbol =>
    match decStr (m "source") with
    | none => none
    | some source =>
    match decTime (m "updated_at") with
    | none => none
    | some updated_at =>
    some { symbol := symbol, name := name, logo_url := logo_url, price := price,
           change := change, change_percent := change_percent, volume := volume,
           market_cap := market_cap, high_52w := high_52w, low_52w := low_52w,
           change_percent_week := change_percent_week,
           change_percent_month := change_percent_month,
           change_percent_year := change_percent_year,
           pre_market_price := pre_market_price,
           pre_market_change := pre_market_change,
           pre_market_change_percent := pre_market_change_percent,
           post_market_price := post_market_price,
           post_market_change := post_market_change,
           post_market_change_percent := post_market_change_percent,
           market_state := market_state, futures_symbol := futures_symbol,
           source := source, updated_at := updated_at }
  | _ => none

theorem decOptStr_map (o : Option String) : decOptStr (o.map Json.str) = some o := by
  cases o <;> rfl

theorem decOptNum_map (o : Option ℚ) : decOptNum (o.map Json.num) = some o := by
  cases o <;> rfl

theorem decOptInt_map (o : Option Int) : decOptInt (o.map Json.int) = some o := by
  cases o <;> rfl

theorem decNat_int (n : Nat) : decNat (some (Json.int (n : Int))) = some n := by
  simp [decNat, Int.toNat']

/-- Serialize-then-rehydrate is the identity on StockQuote. -/
theorem parse_dumpStockQuote (q : StockQuote) :
    parseStockQuote (dumpStockQuote q) = some q := by
  simp [parseStockQuote, dumpStockQuote, dumpStockQuoteMap, decStr, decNum,
    decTime, decOptStr_map, decOptNum_map, decNat_int]

/-- The dict produced by CryptoQuote.model_dump(mode="json"); the override
in backend/app/schemas/crypto.py defaults exclude_none=True. -/
def dumpCryptoQuoteMap (q : CryptoQuote) : String → Option Json := fun k =>
    if k = "symbol" then some (Json.str q.symbol)
    else if k = "name" then some (Json.str q.name)
    else if k = "logo_url" then q.logo_url.map Json.str
    else if k = "price" then some (Json.num q.price)
    else if k = "change_24h" then some (Json.num q.change_24h)
    else if k = "change_percent_24h" then some (Json.num q.change_percent_24h)
    else if k = "volume_24h" then some (Json.num q.volume_24h)
    else if k = "market_cap" then some (Json.num q.market_cap)
    else if k = "rank" then q.rank.map Json.int
    else if k = "change_percent_7d" then q.change_percent_7d.map Json.num
    else if k = "change_percent_30d" then q.change_percent_30d.map Json.num
    else if k = "change_percent_1y" then q.change_percent_1y.map Json.num
    else if k = "ath" then q.ath.map Json.num
    else if k = "ath_change_percent" then q.ath_change_percent.map Json.num
    else if k = "source" then some (Json.str q.source)
    else if k = "updated_at" then some (Json.time q.updated_at)
    else none

/-- Serialized cache payload of a CryptoQuote as written by
CryptoService._cache_quote: orjson.dumps(quote.model_dump(mode="json")). -/
def dumpCryptoQuote (q : CryptoQuote) : Json :=
  Json.obj (dumpCryptoQuoteMap q)

/-- Rehydration of a cached CryptoQuote payload: orjson.loads followed by
the pydantic constructor CryptoQuote(**data). -/
def parseCryptoQuote : Json → Option CryptoQuote
  | Json.obj m =>
    match decStr (m "symbol") with
    | none => none
    | some symbol =>
    match decStr (m "name") with
    | none => none
    | some name =>
    match decOptStr (m "logo_url") with
    | none => none
    | some logo_url =>
    match decNum (m "price") with
    | none => none
    | some price =>
    match decNum (m "change_24h") with
    | none => none
    | some change_24h =>
    match decNum (m "change_percent_24h") with
    | none => none
    | some change_percent_24h =>
    match decNum (m "volume_24h") with
    | none => none
    | some volume_24h =>
    match decNum (m "market_cap") with
    | none => none
    | some market_cap =>
    match decOptInt (m "rank") with
    | none => none
    | some rank =>
    match decOptNum (m "change_percent_7d") with
    | none => none
    | some change_percent_7d =>
    match decOptNum (m "change_percent_30d") with
    | none => none
    | some change_percent_30d =>
    match decOptNum (m "change_percent_1y") with
    | none => none
    | some change_percent_1y =>
    match decOptNum (m "ath") with
    | none => none
    | some ath =>
    match decOptNum (m "ath_change_percent") with
    | none => none
    | some ath_change_percent =>
    match decStr (m "source") with
    | none => none
    | some source =>
    match decTime (m "updated_at") with
    | none => none
    | some updated_at =>
    some { symbol := symbol, name := name, logo_url := logo_url, price := price,
           change_24h := change_24h, change_percent_24h := change_percent_24h,
           volume_24h := volume_24h, market_cap := market_cap, rank := rank,
           change_percent_7d := change_percent_7d,
           change_percent_30d := change_percent_30d,
           change_percent_1y := change_percent_1y,
           ath := ath, ath_change_percent := ath_change_percent,
           source := source, updated_at := updated_at }
  | _ => none

/-- Serialize-then-rehydrate is the identity on CryptoQuote. -/
theorem parse_dumpCryptoQuote (q : CryptoQuote) :
    parseCryptoQuote (dumpCryptoQuote q) = some q := by
  simp [parseCryptoQuote, dumpCryptoQuote, dumpCryptoQuoteMap, decStr, decNum,
    decTime, decOptStr_map, decOptNum_map, decOptInt_map]

/-- Eventual result of one provider fetch attempt as observed by the race
loop in get_quote: a quote, a SymbolNotFoundError, or any other
exception carrying its message. -/
inductive FetchOutcome (Q : Type) where
  | ok (q : Q)
  | notFound
  | err (msg : String)
  deriving Repr, DecidableEq

/-- Outcome of the attempt with index t (out-of-range indices never occur
under a valid schedule). -/
def outcomeAt {Q : Type} (outcomes : List (FetchOutcome Q)) (t : Nat) : FetchOutcome Q :=
  outcomes.getD t (FetchOutcome.err "")

/-- Whether an attempt raised SymbolNotFoundError. -/
def isNF {Q : Type} : FetchOutcome Q → Bool
  | FetchOutcome.notFound => true
  | _ => false

/-- Message part appended to the errors list for a failed attempt: the
race records the fixed text for SymbolNotFoundError and str(e) otherwise. -/
def failMsg {Q : Type} : FetchOutcome Q → String
  | FetchOutcome.ok _ => ""
  | FetchOutcome.notFound => "symbol not found"
  | FetchOutcome.err m => m

/-- Source label the loop attributes to completed task t:
tasks.index(completed_task) into task_sources, or "Unknown" when the
task is no longer in the list (cannot happen for a done batch). -/
def raceLabel (tasks : List Nat) (sources : List String) (t : Nat) : String :=
  if t ∈ tasks then sources.getD (tasks.indexOf t) "IndexError" else "Unknown"

/-- Terminal result of the race loop. -/
inductive RaceResult (Q : Type) where
  | won (q : Q)
  | symbolNotFound
  | exhausted (errors : List String)
  deriving Repr, DecidableEq

/-- One round's for-loop over the done set (stock_service.py lines
102-118, crypto_service.py lines 237-253): returns the first successful
quote, or the updated (symbol_not_found, errors) pair. -/
def processBatch {Q : Type} (outcomes : List (FetchOutcome Q))
    (tasks : List Nat) (sources : List String) :
    List Nat → Bool → List String → Q ⊕ (Bool × List String)
  | [], nf, errs => Sum.inr (nf, errs)
  | t :: rest, nf, errs =>
    let source := raceLabel tasks sources t
    match outcomeAt outcomes t with
    | FetchOutcome.ok q => Sum.inl q
    | FetchOutcome.notFound =>
        processBatch outcomes tasks sources rest true (errs ++ [source ++ ": symbol not found"])
    | FetchOutcome.err m =>
        processBatch outcomes tasks sources rest nf (errs ++ [source ++ ": " ++ m])

/-- The race loop of get_quote (stock_service.py lines 99-135,
crypto_service.py lines 234-269).  The schedule lists the successive
done batches returned by asyncio.wait; after each round the pending
tasks keep their relative order and task_sources is rebuilt by the
positional bookkeeping at lines 122-130, which amounts to truncating the
previous list to the new length.  An exhausted schedule with tasks still
pending corresponds to a run in which no further completion is ever
delivered; it is unreachable under ValidSchedule. -/
def runRace {Q : Type} (outcomes : List (FetchOutcome Q)) :
    List (List Nat) → List Nat → List String → Bool → List String → RaceResult Q
  | _, [], _, nf, errs =>
      if nf then RaceResult.symbolNotFound else RaceResult.exhausted errs
  | [], _ :: _, _, nf, errs =>
      if nf then RaceResult.symbolNotFound else RaceResult.exhausted errs
  | done :: sched, t :: ts, sources, nf, errs =>
    match processBatch outcomes (t :: ts) sources done nf errs with
    | Sum.inl q => RaceResult.won q
    | Sum.inr (nf2, errs2) =>
      let pending := (t :: ts).filter (fun x => x ∉ done)
      runRace outcomes sched pending (sources.take pending.length) nf2 errs2

/-- A schedule is valid for n attempts when every attempt completes
exactly once and every asyncio.wait round reports at least one
completion. -/
def ValidSchedule (n : Nat) (sched : List (List Nat)) : Prop :=
  sched.flatten.Perm (List.range n) ∧ ∀ b ∈ sched, b ≠ []

/-- Quote of the first successful attempt in completion order, if any. -/
def firstSuccess {Q : Type} (outcomes : List (FetchOutcome Q)) : List Nat → Option Q
  | [] => none
  | t :: rest =>
    match outcomeAt outcomes t with
    | FetchOutcome.ok q => some q
    | _ => firstSuccess outcomes rest

/-- Whether some attempt in the given completion order raised
SymbolNotFoundError. -/
def anyNF {Q : Type} (outcomes : List (FetchOutcome Q)) (lin : List Nat) : Bool :=
  lin.any (fun t => isNF (outcomeAt outcomes t))

/-- Errors-list entry the race loop appends for a failed attempt with
the given attributed source label. -/
def tagEntry {Q : Type} (lab : String) : FetchOutcome Q → String
  | FetchOutcome.ok _ => ""
  | FetchOutcome.notFound => lab ++ ": symbol not found"
  | FetchOutcome.err m => lab ++ ": " ++ m

/-- The errors list obtained by tagging each attempt's failure message
with a source label, in completion order. -/
def taggedMsgs {Q : Type} (outcomes : List (FetchOutcome Q))
    (labels : List String) (lin : List Nat) : List String :=
  List.zipWith (fun lab t => tagEntry lab (outcomeAt outcomes t)) labels lin

/-- For a failed attempt the recorded entry is the attributed label, a
colon separator, and the attempt's failure message. -/
theorem tagEntry_eq_failMsg {Q : Type} (lab : String) (o : FetchOutcome Q)
    (h : ∀ q : Q, o ≠ FetchOutcome.ok q) :
    tagEntry lab o = lab ++ ": " ++ failMsg o := by
  cases o with
  | ok q => exact absurd rfl (h q)
  | notFound =>
    show lab ++ ": symbol not found" = lab ++ ": " ++ "symbol not found"
    rw [String.append_assoc]
    rfl
  | err m => rfl

/-- Labels attributed during one round to the done batch. -/
def batchLabels (tasks : List Nat) (sources : List String) (done : List Nat) : List String :=
  done.map (raceLabel tasks sources)

theorem processBatch_success {Q : Type} (outcomes : List (FetchOutcome Q))
    (tasks : List Nat) (sources : List String) (done : List Nat)
    (nf : Bool) (errs : List String) (q : Q)
    (h : firstSuccess outcomes done = some q) :
    processBatch outcomes tasks sources done nf errs = Sum.inl q := by
  induction done generalizing nf errs with
  | nil => simp [firstSuccess] at h
  | cons t rest ih =>
    cases hout : outcomeAt outcomes t with
    | ok q2 =>
      simp only [firstSuccess, hout, Option.some.injEq] at h
      simp [processBatch, hout, h]
    | notFound =>
      simp only [firstSuccess, hout] at h
      simp [processBatch, hout, ih _ _ h]
    | err m =>
      simp only [firstSuccess, hout] at h
      simp [processBatch, hout, ih _ _ h]

theorem processBatch_no_success {Q : Type} (outcomes : List (FetchOutcome Q))
    (tasks : List Nat) (sources : List String) (done : List Nat)
    (nf : Bool) (errs : List String)
    (h : firstSuccess outcomes done = none) :
    processBatch outcomes tasks sources done nf errs
      = Sum.inr (nf || anyNF outcomes done,
          errs ++ taggedMsgs outcomes (batchLabels tasks sources done) done) := by
  induction done generalizing nf errs with
  | nil => simp [processBatch, anyNF, taggedMsgs, batchLabels]
  | cons t rest ih =>
    cases hout : outcomeAt outcomes t with
    | ok q2 =>
      simp only [firstSuccess, hout] at h
      exact (Option.some_ne_none q2 h).elim
    | notFound =>
      simp only [firstSuccess, hout] at h
      simp [processBatch, hout, ih _ _ h, anyNF, taggedMsgs, batchLabels,
        isNF, tagEntry, List.any_cons, List.append_assoc]
    | err m =>
      simp only [firstSuccess, hout] at h
      simp [processBatch, hout, ih _ _ h, anyNF, taggedMsgs, batchLabels,
        isNF, tagEntry, List.any_cons, List.append_assoc]

theorem firstSuccess_append_some {Q : Type} (outcomes : List (FetchOutcome Q))
    (l1 l2 : List Nat) (q : Q) (h : firstSuccess outcomes l1 = some q) :
    firstSuccess outcomes (l1 ++ l2) = some q := by
  induction l1 with
  | nil => simp [firstSuccess] at h
  | cons t rest ih =>
    cases hout : outcomeAt outcomes t with
    | ok q2 =>
      simp only [firstSuccess, hout, Option.some.injEq] at h
      simp [firstSuccess, hout, h]
    | notFound =>
      simp only [firstSuccess, hout] at h
      simp [firstSuccess, hout, ih h]
    | err m =>
      simp only [firstSuccess, hout] at h
      simp [firstSuccess, hout, ih h]

theorem firstSuccess_append_none {Q : Type} (outcomes : List (FetchOutcome Q))
    (l1 l2 : List Nat) (h : firstSuccess outcomes l1 = none) :
    firstSuccess outcomes (l1 ++ l2) = firstSuccess outcomes l2 := by
  induction l1 with
  | nil => simp
  | cons t rest ih =>
    cases hout : outcomeAt outcomes t with
    | ok q2 =>
      simp only [firstSuccess, hout] at h
      exact (Option.some_ne_none q2 h).elim
    | notFound =>
      simp only [firstSuccess, hout] at h
      simp [firstSuccess, hout, ih h]
    | err m =>
      simp only [firstSuccess, hout] at h
      simp [firstSuccess, hout, ih h]

theorem anyNF_append {Q : Type} (outcomes : List (FetchOutcome Q)) (l1 l2 : List Nat) :
    anyNF outcomes (l1 ++ l2) = (anyNF outcomes l1 || anyNF outcomes l2) := by
  simp [anyNF, List.any_append]

/-- After a round, list(pending) is a permutation of the attempts of the
remaining batches. -/
theorem pending_perm (tasks done rest : List Nat) (hnd : tasks.Nodup)
    (hperm : (done ++ rest).Perm tasks) :
    (tasks.filter (fun x => x ∉ done)).Perm rest := by
  have hnd2 : (done ++ rest).Nodup := (hperm.nodup_iff).mpr hnd
  rw [List.nodup_append] at hnd2
  have hflt := (hperm.symm).filter (fun x => decide (x ∉ done))
  rw [List.filter_append] at hflt
  have h1 : done.filter (fun x => decide (x ∉ done)) = [] := by
    rw [List.filter_eq_nil_iff]
    intro a ha
    simp [ha]
  have h2 : rest.filter (fun x => decide (x ∉ done)) = rest := by
    rw [List.filter_eq_self]
    intro a ha
    simp only [decide_eq_true_eq]
    intro hcontra
    exact hnd2.2.2 hcontra ha
  rw [h1, h2] at hflt
  simpa using hflt

/-- The race returns the quote of the first attempt to complete
successfully, for every valid schedule. -/
theorem runRace_won {Q : Type} (outcomes : List (FetchOutcome Q)) (q : Q) :
    ∀ (sched : List (List Nat)) (tasks : List Nat) (sources : List String)
      (nf : Bool) (errs : List String),
      sched.flatten.Perm tasks → (∀ b ∈ sched, b ≠ []) → tasks.Nodup →
      firstSuccess outcomes sched.flatten = some q →
      runRace outcomes sched tasks sources nf errs = RaceResult.won q := by
  intro sched
  induction sched with
  | nil =>
    intro tasks sources nf errs hperm hne hnd hfs
    simp [firstSuccess] at hfs
  | cons done rest ih =>
    intro tasks sources nf errs hperm hne hnd hfs
    simp only [List.flatten_cons] at hperm hfs
    have hdone : done ≠ [] := hne done (by simp)
    match tasks with
    | [] =>
      exact absurd (List.append_eq_nil.mp hperm.eq_nil).1 hdone
    | t :: ts =>
      simp only [runRace]
      cases hfd : firstSuccess outcomes done with
      | some q2 =>
        have heq : firstSuccess outcomes (done ++ rest.flatten) = some q2 :=
          firstSuccess_append_some outcomes done rest.flatten q2 hfd
        rw [heq, Option.some.injEq] at hfs
        subst hfs
        rw [processBatch_success outcomes (t :: ts) sources done nf errs q2 hfd]
      | none =>
        rw [processBatch_no_success outcomes (t :: ts) sources done nf errs hfd]
        have hfs2 : firstSuccess outcomes rest.flatten = some q := by
          rw [firstSuccess_append_none outcomes done rest.flatten hfd] at hfs
          exact hfs
        exact ih _ _ _ _
          (pending_perm (t :: ts) done rest.flatten hnd hperm).symm
          (fun b hb => hne b (by simp [hb]))
          (hnd.filter _)
          hfs2

/-- When no attempt succeeds, every attempt is processed: the race raises
SymbolNotFound as soon as any attempt reported not-found, and otherwise
exhausts with one tagged error message per attempt in completion order. -/
theorem runRace_failed {Q : Type} (outcomes : List (FetchOutcome Q)) :
    ∀ (sched : List (List Nat)) (tasks : List Nat) (sources : List String)
      (nf : Bool) (errs : List String),
      sched.flatten.Perm tasks → (∀ b ∈ sched, b ≠ []) → tasks.Nodup →
      firstSuccess outcomes sched.flatten = none →
      ∃ labels : List String, labels.length = sched.flatten.length ∧
        runRace outcomes sched tasks sources nf errs =
          (if nf || anyNF outcomes sched.flatten then RaceResult.symbolNotFound
           else RaceResult.exhausted (errs ++ taggedMsgs outcomes labels sched.flatten)) := by
  intro sched
  induction sched with
  | nil =>
    intro tasks sources nf errs hperm hne hnd hfs
    have htasks : tasks = [] := (hperm.symm).eq_nil
    refine ⟨[], rfl, ?_⟩
    simp [htasks, runRace, anyNF, taggedMsgs]
  | cons done rest ih =>
    intro tasks sources nf errs hperm hne hnd hfs
    simp only [List.flatten_cons] at hperm hfs ⊢
    have hdone : done ≠ [] := hne done (by simp)
    match tasks with
    | [] =>
      exact absurd (List.append_eq_nil.mp hperm.eq_nil).1 hdone
    | t :: ts =>
      have hfd : firstSuccess outcomes done = none := by
        cases hfd2 : firstSuccess outcomes done with
        | none => rfl
        | some q2 =>
          rw [firstSuccess_append_some outcomes done rest.flatten q2 hfd2] at hfs
          exact absurd hfs (Option.some_ne_none q2)
      have hfr : firstSuccess outcomes rest.flatten = none := by
        rw [firstSuccess_append_none outcomes done rest.flatten hfd] at hfs
        exact hfs
      obtain ⟨labels2, hlen2, hrun2⟩ :=
        ih ((t :: ts).filter (fun x => x ∉ done))
          ((sources.take (((t :: ts).filter (fun x => x ∉ done)).length)))
          (nf || anyNF outcomes done)
          (errs ++ taggedMsgs outcomes (batchLabels (t :: ts) sources done) done)
          (pending_perm (t :: ts) done rest.flatten hnd hperm).symm
          (fun b hb => hne b (by simp [hb]))
          (hnd.filter _)
          hfr
      refine ⟨batchLabels (t :: ts) sources done ++ labels2, ?_, ?_⟩
      · simp [batchLabels, hlen2]
      · simp only [runRace,
          processBatch_no_success outcomes (t :: ts) sources done nf errs hfd]
        rw [hrun2]
        have hzip : taggedMsgs outcomes (batchLabels (t :: ts) sources done ++ labels2)
            (done ++ rest.flatten)
            = taggedMsgs outcomes (batchLabels (t :: ts) sources done) done
              ++ taggedMsgs outcomes labels2 rest.flatten := by
          apply List.zipWith_append
          simp [batchLabels]
        rw [hzip, anyNF_append, Bool.or_assoc, List.append_assoc]

/-- Relevant application settings (backend/app/config.py). -/
structure Settings where
  alpha_vantage_api_key : Option String := none
  polygon_api_key : Option String := none
  coinmarketcap_api_key : Option String := none
  cache_ttl_seconds : Nat := 90
  cache_history_ttl_seconds : Nat := 900

/-- Python truthiness of an optional API-key string: None and the empty
string are falsy. -/
def truthy : Option String → Bool
  | none => false
  | some s => !s.isEmpty

/-- Python str.upper(), modelled character-wise (symbols are ASCII). -/
def upperStr (s : String) : String := String.mk (s.data.map Char.toUpper)

/-- Python str.lower(), modelled character-wise. -/
def lowerStr (s : String) : String := String.mk (s.data.map Char.toLower)

/-- Python str.strip(): remove leading and trailing whitespace. -/
def stripStr (s : String) : String :=
  String.mk (((s.data.dropWhile Char.isWhitespace).reverse.dropWhile
    Char.isWhitespace).reverse)

/-- Canonical symbol normalization applied on entry to get_quote and
get_history: symbol.upper().strip(). -/
def normalizeSymbol (s : String) : String := stripStr (upperStr s)

/-- Data sources raced by StockService.get_quote: Yahoo always, Alpha
Vantage and Polygon when their keys are configured. -/
def enabledStockSources (st : Settings) : List String :=
  ["Yahoo"]
    ++ (if truthy st.alpha_vantage_api_key then ["Alpha Vantage"] else [])
    ++ (if truthy st.polygon_api_key then ["Polygon"] else [])

/-- Data sources raced by CryptoService.get_quote: CoinGecko and Binance
always, CoinMarketCap when its key is configured. -/
def enabledCryptoSources (st : Settings) : List String :=
  ["CoinGecko", "Binance"]
    ++ (if truthy st.coinmarketcap_api_key then ["CoinMarketCap"] else [])

/-- Observable outcome of one get_quote call.  deserializationFault marks
the unguarded exception escaping from orjson.loads / the pydantic
constructor on a cache hit with a malformed payload. -/
inductive GetQuoteResult (Q : Type) where
  | ok (q : Q)
  | symbolNotFound (msg : String)
  | exhausted (msg : String) (errors : List String)
  | deserializationFault
  deriving Repr, DecidableEq

/-- Execution record of one get_quote call: its result plus the cache
keys read, the (source, symbol) provider attempts launched, and the
(key, ttl, payload) cache writes performed, in order. -/
structure QuoteExec (Q : Type) where
  result : GetQuoteResult Q
  cacheReads : List String
  providerCalls : List (String × String)
  cacheWrites : List (String × Nat × Json)

/-- StockService.get_quote (stock_service.py lines 54-135).  The provider
attempts' eventual outcomes and the completion schedule are inputs; the
race itself is runRace.  On a win the quote is cached with the quote TTL
before returning. -/
def stockGetQuote (st : Settings) (cache : String → Option Json)
    (outcomes : List (FetchOutcome StockQuote)) (sched : List (List Nat))
    (symbol : String) : QuoteExec StockQuote :=
  let sym := normalizeSymbol symbol
  let key := "stock:quote:" ++ sym
  match cache key with
  | some payload =>
    match parseStockQuote payload with
    | some q => ⟨GetQuoteResult.ok q, [key], [], []⟩
    | none => ⟨GetQuoteResult.deserializationFault, [key], [], []⟩
  | none =>
    let sources := enabledStockSources st
    match runRace outcomes sched (List.range sources.length) sources false [] with
    | RaceResult.won q =>
        ⟨GetQuoteResult.ok q, [key], sources.map (fun s => (s, sym)),
         [(key, st.cache_ttl_seconds, dumpStockQuote q)]⟩
    | RaceResult.symbolNotFound =>
        ⟨GetQuoteResult.symbolNotFound ("Symbol " ++ sym ++ " not found in any source"),
         [key], sources.map (fun s => (s, sym)), []⟩
    | RaceResult.exhausted errs =>
        ⟨GetQuoteResult.exhausted
           ("All data sources failed for " ++ sym ++ ": " ++ String.intercalate "; " errs)
           errs,
         [key], sources.map (fun s => (s, sym)), []⟩

/-- CryptoService.get_quote (crypto_service.py lines 189-269): same race
shape with the crypto sources, key scheme and exception types
(SymbolNotFoundError / AllSourcesExhaustedError). -/
def cryptoGetQuote (st : Settings) (cache : String → Option Json)
    (outcomes : List (FetchOutcome CryptoQuote)) (sched : List (List Nat))
    (symbol : String) : QuoteExec CryptoQuote :=
  let sym := normalizeSymbol symbol
  let key := "crypto:quote:" ++ sym
  match cache key with
  | some payload =>
    match parseCryptoQuote payload with
    | some q => ⟨GetQuoteResult.ok q, [key], [], []⟩
    | none => ⟨GetQuoteResult.deserializationFault, [key], [], []⟩
  | none =>
    let sources := enabledCryptoSources st
    match runRace outcomes sched (List.range sources.length) sources false [] with
    | RaceResult.won q =>
        ⟨GetQuoteResult.ok q, [key], sources.map (fun s => (s, sym)),
         [(key, st.cache_ttl_seconds, dumpCryptoQuote q)]⟩
    | RaceResult.symbolNotFound =>
        ⟨GetQuoteResult.symbolNotFound ("Symbol " ++ sym ++ " not found in any source"),
         [key], sources.map (fun s => (s, sym)), []⟩
    | RaceResult.exhausted errs =>
        ⟨GetQuoteResult.exhausted
           ("All data sources failed for " ++ sym ++ ": " ++ String.intercalate "; " errs)
           errs,
         [key], sources.map (fun s => (s, sym)), []⟩

/-- PriceHistory pydantic model (backend/app/schemas/stock.py).  The
field named open in the source is rendered open_ because open is a Lean
keyword. -/
structure PriceHistory where
  timestamp : Nat
  open_ : ℚ
  high : ℚ
  low : ℚ
  close : ℚ
  volume : Int
  deriving Repr, DecidableEq

/-- CryptoPriceHistory pydantic model (backend/app/schemas/crypto.py). -/
structure CryptoPriceHistory where
  timestamp : Nat
  price : ℚ
  deriving Repr, DecidableEq

/-- The dict produced by PriceHistory.model_dump(mode="json") (no
exclude_none override here; all fields are required anyway). -/
def dumpPriceHistoryMap (h : PriceHistory) : String → Option Json := fun k =>
    if k = "timestamp" then some (Json.time h.timestamp)
    else if k = "open" then some (Json.num h.open_)
    else if k = "high" then some (Json.num h.high)
    else if k = "low" then some (Json.num h.low)
    else if k = "close" then some (Json.num h.close)
    else if k = "volume" then some (Json.int h.volume)
    else none

/-- Decode a required int field. -/
def decInt : Option Json → Option Int
  | some (Json.int n) => some n
  | _ => none

/-- Rehydration of one cached PriceHistory item: PriceHistory(**item). -/
def parsePriceHistory : Json → Option PriceHistory
  | Json.obj m =>
    match decTime (m "timestamp") with
    | none => none
    | some timestamp =>
    match decNum (m "open") with
    | none => none
    | some open_ =>
    match decNum (m "high") with
    | none => none
    | some high =>
    match decNum (m "low") with
    | none => none
    | some low =>
    match decNum (m "close") with
    | none => none
    | some close =>
    match decInt (m "volume") with
    | none => none
    | some volume =>
    some { timestamp := timestamp, open_ := open_, high := high, low := low,
           close := close, volume := volume }
  | _ => none

/-- The dict produced by CryptoPriceHistory.model_dump(mode="json"). -/
def dumpCryptoPriceHistoryMap (h : CryptoPriceHistory) : String → Option Json := fun k =>
    if k = "timestamp" then some (Json.time h.timestamp)
    else if k = "price" then some (Json.num h.price)
    else none

/-- Rehydration of one cached CryptoPriceHistory item. -/
def parseCryptoPriceHistory : Json → Option CryptoPriceHistory
  | Json.obj m =>
    match decTime (m "timestamp") with
    | none => none
    | some timestamp =>
    match decNum (m "price") with
    | none => none
    | some price =>
    some { timestamp := timestamp, price := price }
  | _ => none

/-- Deserialization of a cached history payload: orjson.loads giving a
list and the pydantic constructor applied to each item. -/
def parseJsonList {H : Type} (p : Json → Option H) : Json → Option (List H)
  | Json.arr items => items.mapM p
  | _ => none

/-- Eventual result of the single history fetch: the parsed rows of the
provider response, or any exception raised inside the try block. -/
inductive HistFetch (H : Type) where
  | rows (rows : List H)
  | failure (msg : String)

/-- Observable outcome of one get_history call: the returned list, or
the unguarded deserialization fault escaping from the cache-hit path. -/
inductive GetHistResult (H : Type) where
  | ok (rows : List H)
  | deserializationFault
  deriving Repr, DecidableEq

/-- Execution record of one get_history call. -/
structure HistExec (H : Type) where
  result : GetHistResult H
  cacheReads : List String
  providerCalls : List (String × String × String)
  cacheWrites : List (String × Nat × Json)

/-- The period/interval table of StockService.get_history with its
default mapping for unrecognized range codes. -/
def rangeConfig (r : String) : String × String :=
  if r = "1D" then ("1d", "5m")
  else if r = "1W" then ("5d", "30m")
  else if r = "1M" then ("1mo", "1d")
  else if r = "3M" then ("3mo", "1d")
  else if r = "6M" then ("6mo", "1d")
  else if r = "1Y" then ("1y", "1d")
  else if r = "5Y" then ("5y", "1wk")
  else ("1mo", "1d")

/-- StockService.get_history (stock_service.py lines 347-412).  An empty
frame returns [] without caching; a non-empty frame is cached with the
history TTL; any exception inside the try block yields []. -/
def stockGetHistory (st : Settings) (cache : String → Option Json)
    (fetch : HistFetch PriceHistory) (symbol : String) (time_range : String) :
    HistExec PriceHistory :=
  let sym := normalizeSymbol symbol
  let key := "stock:history:" ++ sym ++ ":" ++ time_range
  match cache key with
  | some payload =>
    match parseJsonList parsePriceHistory payload with
    | some rows => ⟨GetHistResult.ok rows, [key], [], []⟩
    | none => ⟨GetHistResult.deserializationFault, [key], [], []⟩
  | none =>
    let cfg := rangeConfig time_range
    match fetch with
    | HistFetch.failure _ => ⟨GetHistResult.ok [], [key], [(sym, cfg.1, cfg.2)], []⟩
    | HistFetch.rows rows =>
      if rows.isEmpty then ⟨GetHistResult.ok [], [key], [(sym, cfg.1, cfg.2)], []⟩
      else
        ⟨GetHistResult.ok rows, [key], [(sym, cfg.1, cfg.2)],
         [(key, st.cache_history_ttl_seconds,
           Json.arr (rows.map (fun h => Json.obj (dumpPriceHistoryMap h))))]⟩

/-- The range-to-days table of CryptoService.get_history with its default
of 30 days for unrecognized range codes. -/
def rangeDays (r : String) : Nat :=
  if r = "1D" then 1
  else if r = "1W" then 7
  else if r = "1M" then 30
  else if r = "3M" then 90
  else if r = "6M" then 180
  else if r = "1Y" then 365
  else 30

/-- An apostrophe character, spelled via its code point to keep display
names as plain concatenations. -/
def apos : String := String.mk [Char.ofNat 39]

/-- Per-provider identifiers and display name of one SYMBOL_MAP entry
(crypto_service.py lines 36-168).  Only the coingecko id and the display
name are consulted by the functions modelled here; the binance pair is
used inside the Binance provider adapter, which sits behind the
FetchOutcome boundary. -/
structure CoinInfo where
  coingecko : String
  name : String
  deriving Repr, DecidableEq

/-- Part 1 of the SYMBOL_MAP table (split to keep list literals small). -/
def symbolMapPart1 : List (String × CoinInfo) := [
("BTC", ⟨"bitcoin", "Bitcoin"⟩),
  ("ETH", ⟨"ethereum", "Ethereum"⟩),
  ("SOL", ⟨"solana", "Solana"⟩),
  ("XRP", ⟨"ripple", "XRP"⟩),
  ("DOGE", ⟨"dogecoin", "Dogecoin"⟩),
  ("ADA", ⟨"cardano", "Cardano"⟩),
  ("AVAX", ⟨"avalanche-2", "Avalanche"⟩),
  ("DOT", ⟨"polkadot", "Polkadot"⟩),
  ("MATIC", ⟨"matic-network", "Polygon"⟩),
  ("LINK", ⟨"chainlink", "Chainlink"⟩),
  ("UNI", ⟨"uniswap", "Uniswap"⟩),
  ("ATOM", ⟨"cosmos", "Cosmos"⟩),
  ("LTC", ⟨"litecoin", "Litecoin"⟩),
  ("BCH", ⟨"bitcoin-cash", "Bitcoin Cash"⟩),
  ("SHIB", ⟨"shiba-inu", "Shiba Inu"⟩),
  ("USDT", ⟨"tether", "Tether"⟩),
  ("USDC", ⟨"usd-coin", "USD Coin"⟩),
  ("USDS", ⟨"usds", "USDS"⟩),
  ("USDE", ⟨"ethena-usde", "Ethena USDe"⟩),
  ("DAI", ⟨"dai", "Dai"⟩),
  ("FDUSD", ⟨"first-digital-usd", "First Digital USD"⟩),
  ("PYUSD", ⟨"paypal-usd", "PayPal USD"⟩),
  ("FRAX", ⟨"frax", "Frax"⟩),
  ("TUSD", ⟨"true-usd", "TrueUSD"⟩),
  ("USDP", ⟨"pax-dollar", "Pax Dollar"⟩),
  ("GUSD", ⟨"gemini-dollar", "Gemini Dollar"⟩),
  ("LUSD", ⟨"liquity-usd", "Liquity USD"⟩),
  ("CRVUSD", ⟨"crvusd", "Curve USD"⟩),
  ("SUSD", ⟨"susd", "sUSD"⟩),
  ("BUSD", ⟨"binance-usd", "Binance USD"⟩),
  ("EURC", ⟨"eurc", "EURC"⟩),
  ("TSLAX", ⟨"tesla-xstock", "Tesla xStock"⟩),
  ("NVDAX", ⟨"nvidia-xstock", "NVIDIA xStock"⟩),
  ("GOOGLX", ⟨"alphabet-xstock", "Alphabet xStock"⟩),
  ("AAPLX", ⟨"apple-xstock", "Apple xStock"⟩),
  ("AMZNX", ⟨"amazon-xstock", "Amazon xStock"⟩),
  ("MSFTX", ⟨"microsoft-xstock", "Microsoft xStock"⟩),
  ("METAX", ⟨"meta-xstock", "Meta xStock"⟩),
  ("NFLXX", ⟨"netflix-xstock", "Netflix xStock"⟩),
  ("COINX", ⟨"coinbase-xstock", "Coinbase xStock"⟩)
]

/-- Part 2 of the SYMBOL_MAP table (split to keep list literals small). -/
def symbolMapPart2 : List (String × CoinInfo) := [
  ("MSTRX", ⟨"microstrategy-xstock", "MicroStrategy xStock"⟩),
  ("INTCX", ⟨"intel-xstock", "Intel xStock"⟩),
  ("AMDX", ⟨"amd-xstock", "AMD xStock"⟩),
  ("ORCLX", ⟨"oracle-xstock", "Oracle xStock"⟩),
  ("PLTRX", ⟨"palantir-xstock", "Palantir xStock"⟩),
  ("CRWDX", ⟨"crowdstrike-xstock", "CrowdStrike xStock"⟩),
  ("CRMX", ⟨"salesforce-xstock", "Salesforce xStock"⟩),
  ("PANWX", ⟨"palo-alto-networks-xstock", "Palo Alto Networks xStock"⟩),
  ("ASMLX", ⟨"asml-xstock", "ASML xStock"⟩),
  ("MUX", ⟨"micron-technology-xstock", "Micron Technology xStock"⟩),
  ("AVGOX", ⟨"broadcom-xstock", "Broadcom xStock"⟩),
  ("SPYX", ⟨"sp500-xstock", "S&P 500 xStock"⟩),
  ("QQQX", ⟨"nasdaq-xstock", "Nasdaq xStock"⟩),
  ("TQQQX", ⟨"tqqq-xstock", "TQQQ xStock"⟩),
  ("VTIX", ⟨"vanguard-xstock", "Vanguard xStock"⟩),
  ("IWMX", ⟨"russell-2000-xstock", "Russell 2000 xStock"⟩),
  ("GLDX", ⟨"gold-xstock", "Gold xStock"⟩),
  ("JPMX", ⟨"jpmorgan-chase-xstock", "JPMorgan Chase xStock"⟩),
  ("GSX", ⟨"goldman-sachs-xstock", "Goldman Sachs xStock"⟩),
  ("BACX", ⟨"bank-of-america-xstock", "Bank of America xStock"⟩),
  ("VX", ⟨"visa-xstock", "Visa xStock"⟩),
  ("MAX", ⟨"mastercard-xstock", "Mastercard xStock"⟩),
  ("AXPX", ⟨"american-express-xstock", "American Express xStock"⟩),
  ("PYPLX", ⟨"paypal-xstock", "PayPal xStock"⟩),
  ("HOODX", ⟨"robinhood-xstock", "Robinhood xStock"⟩),
  ("BLKX", ⟨"blackrock-xstock", "BlackRock xStock"⟩),
  ("PFEX", ⟨"pfizer-xstock", "Pfizer xStock"⟩),
  ("UNHX", ⟨"unitedhealth-xstock", "UnitedHealth xStock"⟩),
  ("JNJX", ⟨"johnson-johnson-xstock", "Johnson & Johnson xStock"⟩),
  ("ABBVX", ⟨"abbvie-xstock", "AbbVie xStock"⟩),
  ("MRKX", ⟨"merck-xstock", "Merck xStock"⟩),
  ("LLYX", ⟨"eli-lilly-xstock", "Eli Lilly xStock"⟩),
  ("NVOX", ⟨"novo-nordisk-xstock", "Novo Nordisk xStock"⟩),
  ("AZNX", ⟨"astrazeneca-xstock", "AstraZeneca xStock"⟩),
  ("ABTX", ⟨"abbott-xstock", "Abbott xStock"⟩),
  ("TMOX", ⟨"thermo-fisher-xstock", "Thermo Fisher xStock"⟩),
  ("DHRX", ⟨"danaher-xstock", "Danaher xStock"⟩),
  ("MDTX", ⟨"medtronic-xstock", "Medtronic xStock"⟩),
  ("COSTX", ⟨"costco-xstock", "Costco xStock"⟩),
  ("MCDX", ⟨"mcdonald-s-xstock", ("McDonald" ++ apos ++ "s xStock")⟩)
]

/-- Part 3 of the SYMBOL_MAP table (split to keep list literals small). -/
def symbolMapPart3 : List (String × CoinInfo) := [
  ("KOX", ⟨"coca-cola-xstock", "Coca-Cola xStock"⟩),
  ("PEPX", ⟨"pepsico-xstock", "PepsiCo xStock"⟩),
  ("PGX", ⟨"procter-gamble-xstock", "Procter & Gamble xStock"⟩),
  ("HDX", ⟨"home-depot-xstock", "Home Depot xStock"⟩),
  ("LULUX", ⟨"lululemon-xstock", "lululemon xStock"⟩),
  ("WENX", ⟨"wendy-s-xstock", ("Wendy" ++ apos ++ "s xStock")⟩),
  ("BKNGX", ⟨"booking-xstock", "Booking xStock"⟩),
  ("EBAYX", ⟨"ebay-xstock", "eBay xStock"⟩),
  ("XOMX", ⟨"exxon-mobil-xstock", "Exxon Mobil xStock"⟩),
  ("CVXX", ⟨"chevron-xstock", "Chevron xStock"⟩),
  ("HONX", ⟨"honeywell-xstock", "Honeywell xStock"⟩),
  ("LINX", ⟨"linde-xstock", "Linde xStock"⟩),
  ("BRK.BX", ⟨"berkshire-hathaway-xstock", "Berkshire Hathaway xStock"⟩),
  ("IBMX", ⟨"international-business-machines-xstock", "IBM xStock"⟩),
  ("CSCOX", ⟨"cisco-xstock", "Cisco xStock"⟩),
  ("ACNX", ⟨"accenture-xstock", "Accenture xStock"⟩),
  ("TX", ⟨"at-t-xstock", "AT&T xStock"⟩),
  ("PMX", ⟨"philip-morris-xstock", "Philip Morris xStock"⟩),
  ("CMCSAX", ⟨"comcast-xstock", "Comcast xStock"⟩),
  ("SPGIX", ⟨"s-p-global-xstock", "S&P Global xStock"⟩),
  ("GMEX", ⟨"gamestop-xstock", "GameStop xStock"⟩),
  ("APPX", ⟨"applovin-xstock", "AppLovin xStock"⟩),
  ("RBLXX", ⟨"roblox-xstock", "Roblox xStock"⟩),
  ("ADBEX", ⟨"adobe-xstock", "Adobe xStock"⟩),
  ("DUOLX", ⟨"duolingo-xstock", "Duolingo xStock"⟩),
  ("EXPEX", ⟨"expedia-xstock", "Expedia xStock"⟩),
  ("MRVLX", ⟨"marvell-xstock", "Marvell xStock"⟩),
  ("CRCLX", ⟨"circle-xstock", "Circle xStock"⟩),
  ("DFDVX", ⟨"dfdv-xstock", "DeFi Development Corp xStock"⟩),
  ("GLXYX", ⟨"galaxy-digital-xstock", "Galaxy Digital xStock"⟩),
  ("RIOTX", ⟨"riot-platforms-xstock", "Riot Platforms xStock"⟩),
  ("CLSKX", ⟨"cleanspark-xstock", "CleanSpark xStock"⟩),
  ("CORZX", ⟨"core-scientific-xstock", "Core Scientific xStock"⟩),
  ("HUTX", ⟨"hut-8-xstock", "Hut 8 xStock"⟩),
  ("BTBTX", ⟨"bit-digital-xstock", "Bit Digital xStock"⟩),
  ("FUFUX", ⟨"bitfufu-xstock", "BitFuFu xStock"⟩),
  ("BMNRX", ⟨"bitmine-xstock", "Bitmine xStock"⟩),
  ("RKLBX", ⟨"rocket-lab-xstock", "Rocket Lab xStock"⟩),
  ("OKLOX", ⟨"oklo-xstock", "Oklo xStock"⟩),
  ("ASTSX", ⟨"ast-spacemobile-xstock", "AST SpaceMobile xStock"⟩)
]

/-- The static SYMBOL_MAP reference table (crypto_service.py lines
36-168), in source order. -/
def SYMBOL_MAP : List (String × CoinInfo) :=
  symbolMapPart1 ++ symbolMapPart2 ++ symbolMapPart3

/-- Python dict lookup SYMBOL_MAP.get(s) (keys are unique in a dict
display, so first match suffices). -/
def symbolMapLookup (s : String) : Option CoinInfo :=
  (SYMBOL_MAP.find? (fun p => p.1 = s)).map (fun p => p.2)

/-- CryptoService.get_history (crypto_service.py lines 405-467): cache
check, CoinGecko market_chart fetch with the mapped coin id, cache write
(even for an empty series), empty list on any exception. -/
def cryptoGetHistory (st : Settings) (cache : String → Option Json)
    (fetch : HistFetch CryptoPriceHistory) (symbol : String) (time_range : String) :
    HistExec CryptoPriceHistory :=
  let sym := normalizeSymbol symbol
  let key := "crypto:history:" ++ sym ++ ":" ++ time_range
  match cache key with
  | some payload =>
    match parseJsonList parseCryptoPriceHistory payload with
    | some rows => ⟨GetHistResult.ok rows, [key], [], []⟩
    | none => ⟨GetHistResult.deserializationFault, [key], [], []⟩
  | none =>
    let days := rangeDays time_range
    let coin_id :=
      match symbolMapLookup sym with
      | some info => info.coingecko
      | none => lowerStr sym
    match fetch with
    | HistFetch.failure _ => ⟨GetHistResult.ok [], [key], [(coin_id, toString days, "usd")], []⟩
    | HistFetch.rows rows =>
        ⟨GetHistResult.ok rows, [key], [(coin_id, toString days, "usd")],
         [(key, st.cache_history_ttl_seconds,
           Json.arr (rows.map (fun h => Json.obj (dumpCryptoPriceHistoryMap h))))]⟩

/-- One coin record of the CoinGecko /coins/markets bulk response, with
the fields the batch path reads; absent keys are None. -/
structure Coin where
  id : String
  name : Option String := none
  image : Option String := none
  current_price : Option ℚ := none
  price_change_24h : Option ℚ := none
  price_change_percentage_24h : Option ℚ := none
  total_volume : Option ℚ := none
  market_cap : Option ℚ := none
  market_cap_rank : Option Int := none
  price_change_percentage_7d_in_currency : Option ℚ := none
  price_change_percentage_30d_in_currency : Option ℚ := none
  price_change_percentage_1y_in_currency : Option ℚ := none
  ath : Option ℚ := none
  ath_change_percentage : Option ℚ := none
  deriving Repr, DecidableEq

/-- Provider id used for one requested symbol in the batch path
(crypto_service.py lines 520-521): SYMBOL_MAP keyed by the upper-cased
trimmed symbol, defaulting to the lower-cased raw symbol. -/
def batchCoinId (symbol : String) : String :=
  match symbolMapLookup (normalizeSymbol symbol) with
  | some info => info.coingecko
  | none => lowerStr symbol

/-- Python dict assignment d[k] = v on an insertion-ordered assoc list:
an existing key keeps its position and gets the new value, a new key is
appended. -/
def insertOrReplace (l : List (String × String)) (k v : String) : List (String × String) :=
  if l.any (fun p => p.1 = k) then
    l.map (fun p => if p.1 = k then (k, v) else p)
  else l ++ [(k, v)]

/-- The symbol_to_id dict built by the batch loop (crypto_service.py
lines 517-523): keyed by coin id, valued by the normalized symbol; a
repeated id keeps the last symbol. -/
def symbolToId (symbols : List String) : List (String × String) :=
  symbols.foldl (fun acc s => insertOrReplace acc (batchCoinId s) (normalizeSymbol s)) []

/-- The dict comprehension id_to_coin = (coin id -> coin) over the bulk
response: a repeated id keeps the last coin. -/
def idToCoin (data : List Coin) (cid : String) : Option Coin :=
  data.foldl (fun acc c => if c.id = cid then some c else acc) none

/-- CryptoQuote built from one bulk-response coin for one requested
symbol (crypto_service.py lines 548-566). -/
def batchQuoteOfCoin (symbol : String) (coin : Coin) (now : Nat) : CryptoQuote :=
  let coin_name :=
    match symbolMapLookup symbol with
    | some info => info.name
    | none => coin.name.getD symbol
  { symbol := symbol
    name := coin.name.getD coin_name
    logo_url := coin.image
    price := coin.current_price.getD 0
    change_24h := coin.price_change_24h.getD 0
    change_percent_24h := coin.price_change_percentage_24h.getD 0
    volume_24h := coin.total_volume.getD 0
    market_cap := coin.market_cap.getD 0
    rank := coin.market_cap_rank
    change_percent_7d := coin.price_change_percentage_7d_in_currency
    change_percent_30d := coin.price_change_percentage_30d_in_currency
    change_percent_1y := coin.price_change_percentage_1y_in_currency
    ath := coin.ath
    ath_change_percent := coin.ath_change_percentage
    source := "coingecko"
    updated_at := now }

/-- Execution record of CryptoService._fetch_coingecko_batch: its result
(Except models the exception escaping to get_batch_quotes), the single
bulk provider call with its ids parameter, and the per-quote cache
writes. -/
structure BulkExec where
  result : Except String (List CryptoQuote)
  bulkCalls : List (List String)
  cacheWrites : List (String × Nat × Json)

/-- CryptoService._fetch_coingecko_batch (crypto_service.py lines
502-573): one bulk call for all symbols, no cache consultation,
response keyed back through symbol_to_id, absent ids skipped, each
resolved quote cached individually under its single-symbol key. -/
def cryptoFetchCoingeckoBatch (st : Settings) (now : Nat) (symbols : List String)
    (resp : Except String (List Coin)) : BulkExec :=
  let s2i := symbolToId symbols
  let coinIds := symbols.map batchCoinId
  match resp with
  | Except.error e => ⟨Except.error e, [coinIds], []⟩
  | Except.ok data =>
    let resolved := s2i.filterMap (fun p =>
      (idToCoin data p.1).map (fun coin => (p.2, batchQuoteOfCoin p.2 coin now)))
    ⟨Except.ok (resolved.map (fun r => r.2)), [coinIds],
     resolved.map (fun r =>
       ("crypto:quote:" ++ r.1, st.cache_ttl_seconds, dumpCryptoQuote r.2))⟩

/-- Per-coroutine environment snapshot for one symbol of a batch
fallback: the cache contents at its read, its provider outcomes and its
completion schedule. -/
structure SymbolEnv (Q : Type) where
  cache : String → Option Json
  outcomes : List (FetchOutcome Q)
  sched : List (List Nat)

/-- Execution record of CryptoService.get_batch_quotes. -/
structure CryptoBatchExec where
  quotes : List CryptoQuote
  bulkCalls : List (List String)
  cacheWrites : List (String × Nat × Json)
  fallbackRuns : List (QuoteExec CryptoQuote)

/-- CryptoService.get_batch_quotes (crypto_service.py lines 469-500):
empty input short-circuits; otherwise the bulk path, and on any bulk
exception a concurrent per-symbol get_quote fallback gathering all
outcomes and keeping the successes. -/
def cryptoGetBatchQuotes (st : Settings) (now : Nat) (symbols : List String)
    (resp : Except String (List Coin)) (envs : Nat → SymbolEnv CryptoQuote) :
    CryptoBatchExec :=
  if symbols.isEmpty then ⟨[], [], [], []⟩
  else
    match cryptoFetchCoingeckoBatch st now symbols resp with
    | ⟨Except.ok quotes, calls, writes⟩ => ⟨quotes, calls, writes, []⟩
    | ⟨Except.error _, calls, _⟩ =>
      let runs := (List.range symbols.length).map (fun i =>
        cryptoGetQuote st (envs i).cache (envs i).outcomes (envs i).sched
          (symbols.getD i ""))
      ⟨runs.filterMap (fun e =>
         match e.result with
         | GetQuoteResult.ok q => some q
         | _ => none),
       calls, [], runs⟩

/-- Execution record of StockService.get_batch_quotes. -/
structure StockBatchExec where
  quotes : List StockQuote
  runs : List (QuoteExec StockQuote)

/-- StockService.get_batch_quotes (stock_service.py lines 414-432): one
concurrent get_quote per symbol via asyncio.gather with
return_exceptions=True, keeping the successes in request order. -/
def stockGetBatchQuotes (st : Settings) (symbols : List String)
    (envs : Nat → SymbolEnv StockQuote) : StockBatchExec :=
  let runs := (List.range symbols.length).map (fun i =>
    stockGetQuote st (envs i).cache (envs i).outcomes (envs i).sched
      (symbols.getD i ""))
  ⟨runs.filterMap (fun e =>
     match e.result with
     | GetQuoteResult.ok q => some q
     | _ => none),
   runs⟩

/-- Redis state after a sequence of setex writes (later writes win). -/
def applyWrites (cache : String → Option Json) :
    List (String × Nat × Json) → String → Option Json
  | [], k => cache k
  | w :: ws, k => applyWrites (fun k2 => if k2 = w.1 then some w.2.2 else cache k2) ws k

theorem flatten_length_of_valid {n : Nat} {sched : List (List Nat)}
    (hv : ValidSchedule n sched) : sched.flatten.length = n := by
  have := hv.1.length_eq
  simpa using this

/-- Exact execution record of a stock get_quote that misses the cache
and whose race has a first success. -/
theorem stockGetQuote_won_exec (st : Settings) (cache : String → Option Json)
    (outcomes : List (FetchOutcome StockQuote)) (sched : List (List Nat))
    (symbol : String) (q : StockQuote)
    (hmiss : cache ("stock:quote:" ++ normalizeSymbol symbol) = none)
    (hlen : outcomes.length = (enabledStockSources st).length)
    (hv : ValidSchedule outcomes.length sched)
    (hw : firstSuccess outcomes sched.flatten = some q) :
    stockGetQuote st cache outcomes sched symbol =
      ⟨GetQuoteResult.ok q, ["stock:quote:" ++ normalizeSymbol symbol],
       (enabledStockSources st).map (fun s => (s, normalizeSymbol symbol)),
       [("stock:quote:" ++ normalizeSymbol symbol, st.cache_ttl_seconds,
         dumpStockQuote q)]⟩ := by
  have hperm : sched.flatten.Perm (List.range (enabledStockSources st).length) := by
    rw [← hlen]
    exact hv.1
  have hrun := runRace_won outcomes q sched
    (List.range (enabledStockSources st).length) (enabledStockSources st)
    false [] hperm hv.2 (List.nodup_range _) hw
  simp only [stockGetQuote, hmiss, hrun]

/-- Exact execution record of a crypto get_quote that misses the cache
and whose race has a first success. -/
theorem cryptoGetQuote_won_exec (st : Settings) (cache : String → Option Json)
    (outcomes : List (FetchOutcome CryptoQuote)) (sched : List (List Nat))
    (symbol : String) (q : CryptoQuote)
    (hmiss : cache ("crypto:quote:" ++ normalizeSymbol symbol) = none)
    (hlen : outcomes.length = (enabledCryptoSources st).length)
    (hv : ValidSchedule outcomes.length sched)
    (hw : firstSuccess outcomes sched.flatten = some q) :
    cryptoGetQuote st cache outcomes sched symbol =
      ⟨GetQuoteResult.ok q, ["crypto:quote:" ++ normalizeSymbol symbol],
       (enabledCryptoSources st).map (fun s => (s, normalizeSymbol symbol)),
       [("crypto:quote:" ++ normalizeSymbol symbol, st.cache_ttl_seconds,
         dumpCryptoQuote q)]⟩ := by
  have hperm : sched.flatten.Perm (List.range (enabledCryptoSources st).length) := by
    rw [← hlen]
    exact hv.1
  have hrun := runRace_won outcomes q sched
    (List.range (enabledCryptoSources st).length) (enabledCryptoSources st)
    false [] hperm hv.2 (List.nodup_range _) hw
  simp only [cryptoGetQuote, hmiss, hrun]

/-- Result of a stock get_quote that misses the cache and whose race has
no success: SymbolNotFound exactly when some attempt reported not-found,
otherwise the exhaustion error aggregating one tagged message per
attempt in completion order. -/
theorem stockGetQuote_failed_exec (st : Settings) (cache : String → Option Json)
    (outcomes : List (FetchOutcome StockQuote)) (sched : List (List Nat))
    (symbol : String)
    (hmiss : cache ("stock:quote:" ++ normalizeSymbol symbol) = none)
    (hlen : outcomes.length = (enabledStockSources st).length)
    (hv : ValidSchedule outcomes.length sched)
    (hns : firstSuccess outcomes sched.flatten = none) :
    ∃ labels : List String, labels.length = sched.flatten.length ∧
      stockGetQuote st cache outcomes sched symbol =
        (if anyNF outcomes sched.flatten then
          ⟨GetQuoteResult.symbolNotFound
             ("Symbol " ++ normalizeSymbol symbol ++ " not found in any source"),
           ["stock:quote:" ++ normalizeSymbol symbol],
           (enabledStockSources st).map (fun s => (s, normalizeSymbol symbol)), []⟩
         else
          ⟨GetQuoteResult.exhausted
             ("All data sources failed for " ++ normalizeSymbol symbol ++ ": "
               ++ String.intercalate "; " (taggedMsgs outcomes labels sched.flatten))
             (taggedMsgs outcomes labels sched.flatten),
           ["stock:quote:" ++ normalizeSymbol symbol],
           (enabledStockSources st).map (fun s => (s, normalizeSymbol symbol)), []⟩) := by
  have hperm : sched.flatten.Perm (List.range (enabledStockSources st).length) := by
    rw [← hlen]
    exact hv.1
  obtain ⟨labels, hlab, hrun⟩ := runRace_failed outcomes sched
    (List.range (enabledStockSources st).length) (enabledStockSources st)
    false [] hperm hv.2 (List.nodup_range _) hns
  refine ⟨labels, hlab, ?_⟩
  cases hnf : anyNF outcomes sched.flatten with
  | true =>
    rw [hnf] at hrun
    simp at hrun
    simp [stockGetQuote, hmiss, hrun]
  | false =>
    rw [hnf] at hrun
    simp at hrun
    simp [stockGetQuote, hmiss, hrun]

/-- Result of a crypto get_quote that misses the cache and whose race
has no success. -/
theorem cryptoGetQuote_failed_exec (st : Settings) (cache : String → Option Json)
    (outcomes : List (FetchOutcome CryptoQuote)) (sched : List (List Nat))
    (symbol : String)
    (hmiss : cache ("crypto:quote:" ++ normalizeSymbol symbol) = none)
    (hlen : outcomes.length = (enabledCryptoSources st).length)
    (hv : ValidSchedule outcomes.length sched)
    (hns : firstSuccess outcomes sched.flatten = none) :
    ∃ labels : List String, labels.length = sched.flatten.length ∧
      cryptoGetQuote st cache outcomes sched symbol =
        (if anyNF outcomes sched.flatten then
          ⟨GetQuoteResult.symbolNotFound
             ("Symbol " ++ normalizeSymbol symbol ++ " not found in any source"),
           ["crypto:quote:" ++ normalizeSymbol symbol],
           (enabledCryptoSources st).map (fun s => (s, normalizeSymbol symbol)), []⟩
         else
          ⟨GetQuoteResult.exhausted
             ("All data sources failed for " ++ normalizeSymbol symbol ++ ": "
               ++ String.intercalate "; " (taggedMsgs outcomes labels sched.flatten))
             (taggedMsgs outcomes labels sched.flatten),
           ["crypto:quote:" ++ normalizeSymbol symbol],
           (enabledCryptoSources st).map (fun s => (s, normalizeSymbol symbol)), []⟩) := by
  have hperm : sched.flatten.Perm (List.range (enabledCryptoSources st).length) := by
    rw [← hlen]
    exact hv.1
  obtain ⟨labels, hlab, hrun⟩ := runRace_failed outcomes sched
    (List.range (enabledCryptoSources st).length) (enabledCryptoSources st)
    false [] hperm hv.2 (List.nodup_range _) hns
  refine ⟨labels, hlab, ?_⟩
  cases hnf : anyNF outcomes sched.flatten with
  | true =>
    rw [hnf] at hrun
    simp at hrun
    simp [cryptoGetQuote, hmiss, hrun]
  | false =>
    rw [hnf] at hrun
    simp at hrun
    simp [cryptoGetQuote, hmiss, hrun]

theorem firstSuccess_none_no_ok {Q : Type} (outcomes : List (FetchOutcome Q)) :
    ∀ (lin : List Nat), firstSuccess outcomes lin = none →
      ∀ t ∈ lin, ∀ q : Q, outcomeAt outcomes t ≠ FetchOutcome.ok q := by
  intro lin
  induction lin with
  | nil => intro _ t ht; simp at ht
  | cons t2 rest ih =>
    intro h t ht q
    cases hout : outcomeAt outcomes t2 with
    | ok q2 =>
      simp only [firstSuccess, hout] at h
      exact (Option.some_ne_none q2 h).elim
    | notFound =>
      simp only [firstSuccess, hout] at h
      rcases List.mem_cons.mp ht with rfl | hmem
      · rw [hout]; intro hcontra; cases hcontra
      · exact ih h t hmem q
    | err m =>
      simp only [firstSuccess, hout] at h
      rcases List.mem_cons.mp ht with rfl | hmem
      · rw [hout]; intro hcontra; cases hcontra
      · exact ih h t hmem q

/-- Shape of the aggregated errors list: one entry per completed failed
attempt in completion order, each carrying an attributed source label,
a colon separator, and that attempt's failure message. -/
def ErrsSpec {Q : Type} (outcomes : List (FetchOutcome Q)) (lin : List Nat)
    (errs : List String) : Prop :=
  errs.length = lin.length ∧
  ∀ k, k < errs.length →
    ∃ lab, errs.getD k "" = lab ++ ": " ++ failMsg (outcomeAt outcomes (lin.getD k 0))

theorem errsSpec_tagged {Q : Type} (outcomes : List (FetchOutcome Q)) :
    ∀ (lin : List Nat) (labels : List String), labels.length = lin.length →
    (∀ t ∈ lin, ∀ q : Q, outcomeAt outcomes t ≠ FetchOutcome.ok q) →
    ErrsSpec outcomes lin (taggedMsgs outcomes labels lin) := by
  intro lin
  induction lin with
  | nil =>
    intro labels hlen hok
    refine ⟨by simp [taggedMsgs], ?_⟩
    intro k hk
    simp [taggedMsgs] at hk
  | cons t rest ih =>
    intro labels hlen hok
    match labels with
    | [] => simp at hlen
    | lab :: labs =>
      have hlen2 : labs.length = rest.length := by simpa using hlen
      obtain ⟨hl, hspec⟩ := ih labs hlen2
        (fun t2 ht2 => hok t2 (List.mem_cons_of_mem _ ht2))
      constructor
      · simp [taggedMsgs, List.length_zipWith, hlen2]
      · intro k hk
        cases k with
        | zero =>
          refine ⟨lab, ?_⟩
          simp only [taggedMsgs, List.zipWith_cons_cons, List.getD_cons_zero]
          exact tagEntry_eq_failMsg lab _ (hok t (by simp))
        | succ k2 =>
          have hk2 : k2 < (taggedMsgs outcomes labs rest).length := by
            simp only [taggedMsgs, List.zipWith_cons_cons, List.length_cons] at hk
            simpa [taggedMsgs] using Nat.lt_of_succ_lt_succ hk
          have := hspec k2 hk2
          simpa [taggedMsgs] using this

theorem dumpStockQuote_inj (a b : StockQuote) (h : dumpStockQuote a = dumpStockQuote b) :
    a = b := by
  have ha := parse_dumpStockQuote a
  rw [h, parse_dumpStockQuote b] at ha
  exact (Option.some.inj ha).symm

theorem dumpCryptoQuote_inj (a b : CryptoQuote) (h : dumpCryptoQuote a = dumpCryptoQuote b) :
    a = b := by
  have ha := parse_dumpCryptoQuote a
  rw [h, parse_dumpCryptoQuote b] at ha
  exact (Option.some.inj ha).symm

theorem applyWrites_single (cache : String → Option Json) (k : String) (t : Nat)
    (p : Json) (k2 : String) :
    applyWrites cache [(k, t, p)] k2 = if k2 = k then some p else cache k2 := by
  simp [applyWrites]

/-- Whether a get_quote outcome is a successful quote. -/
def isOkResult {Q : Type} : GetQuoteResult Q → Bool
  | GetQuoteResult.ok _ => true
  | _ => false

theorem stockGetQuote_cacheReads (st : Settings) (cache : String → Option Json)
    (o : List (FetchOutcome StockQuote)) (sched : List (List Nat)) (symbol : String) :
    (stockGetQuote st cache o sched symbol).cacheReads
      = ["stock:quote:" ++ normalizeSymbol symbol] := by
  simp only [stockGetQuote]
  repeat' split
  all_goals simp

theorem stockGetQuote_write_keys (st : Settings) (cache : String → Option Json)
    (o : List (FetchOutcome StockQuote)) (sched : List (List Nat)) (symbol : String) :
    ∀ w ∈ (stockGetQuote st cache o sched symbol).cacheWrites,
      w.1 = "stock:quote:" ++ normalizeSymbol symbol := by
  intro w hw
  simp only [stockGetQuote] at hw
  repeat' split at hw
  all_goals simp_all

theorem stockGetQuote_call_symbols (st : Settings) (cache : String → Option Json)
    (o : List (FetchOutcome StockQuote)) (sched : List (List Nat)) (symbol : String) :
    ∀ pc ∈ (stockGetQuote st cache o sched symbol).providerCalls,
      pc.2 = normalizeSymbol symbol := by
  intro pc hpc
  simp only [stockGetQuote] at hpc
  repeat' split at hpc
  all_goals first
    | (obtain ⟨a, ha, hpc2⟩ := List.mem_map.mp hpc; subst hpc2; rfl)
    | simp_all

theorem cryptoGetQuote_cacheReads (st : Settings) (cache : String → Option Json)
    (o : List (FetchOutcome CryptoQuote)) (sched : List (List Nat)) (symbol : String) :
    (cryptoGetQuote st cache o sched symbol).cacheReads
      = ["crypto:quote:" ++ normalizeSymbol symbol] := by
  simp only [cryptoGetQuote]
  repeat' split
  all_goals simp

theorem cryptoGetQuote_write_keys (st : Settings) (cache : String → Option Json)
    (o : List (FetchOutcome CryptoQuote)) (sched : List (List Nat)) (symbol : String) :
    ∀ w ∈ (cryptoGetQuote st cache o sched symbol).cacheWrites,
      w.1 = "crypto:quote:" ++ normalizeSymbol symbol := by
  intro w hw
  simp only [cryptoGetQuote] at hw
  repeat' split at hw
  all_goals simp_all

theorem cryptoGetQuote_call_symbols (st : Settings) (cache : String → Option Json)
    (o : List (FetchOutcome CryptoQuote)) (sched : List (List Nat)) (symbol : String) :
    ∀ pc ∈ (cryptoGetQuote st cache o sched symbol).providerCalls,
      pc.2 = normalizeSymbol symbol := by
  intro pc hpc
  simp only [cryptoGetQuote] at hpc
  repeat' split at hpc
  all_goals first
    | (obtain ⟨a, ha, hpc2⟩ := List.mem_map.mp hpc; subst hpc2; rfl)
    | simp_all

theorem stockGetHistory_cacheReads (st : Settings) (cache : String → Option Json)
    (fetch : HistFetch PriceHistory) (symbol time_range : String) :
    (stockGetHistory st cache fetch symbol time_range).cacheReads
      = ["stock:history:" ++ normalizeSymbol symbol ++ ":" ++ time_range] := by
  simp only [stockGetHistory]
  repeat' split
  all_goals simp

theorem stockGetHistory_write_keys (st : Settings) (cache : String → Option Json)
    (fetch : HistFetch PriceHistory) (symbol time_range : String) :
    ∀ w ∈ (stockGetHistory st cache fetch symbol time_range).cacheWrites,
      w.1 = "stock:history:" ++ normalizeSymbol symbol ++ ":" ++ time_range := by
  intro w hw
  simp only [stockGetHistory] at hw
  repeat' split at hw
  all_goals simp_all

theorem cryptoGetHistory_cacheReads (st : Settings) (cache : String → Option Json)
    (fetch : HistFetch CryptoPriceHistory) (symbol time_range : String) :
    (cryptoGetHistory st cache fetch symbol time_range).cacheReads
      = ["crypto:history:" ++ normalizeSymbol symbol ++ ":" ++ time_range] := by
  simp only [cryptoGetHistory]
  repeat' split
  all_goals simp

theorem cryptoGetHistory_write_keys (st : Settings) (cache : String → Option Json)
    (fetch : HistFetch CryptoPriceHistory) (symbol time_range : String) :
    ∀ w ∈ (cryptoGetHistory st cache fetch symbol time_range).cacheWrites,
      w.1 = "crypto:history:" ++ normalizeSymbol symbol ++ ":" ++ time_range := by
  intro w hw
  simp only [cryptoGetHistory] at hw
  repeat' split at hw
  all_goals simp_all

/-- C2: for every race in which some provider attempt completes
successfully, get_quote (stock and crypto) returns the quote of the
first successful completion and never raises SymbolNotFound, regardless
of not-found reports from other attempts and of the completion order. -/
theorem c2_first_success_returned
    (st : Settings) (cache : String → Option Json)
    (oS : List (FetchOutcome StockQuote)) (oC : List (FetchOutcome CryptoQuote))
    (schedS schedC : List (List Nat)) (symbol : String)
    (qS : StockQuote) (qC : CryptoQuote)
    (hmS : cache ("stock:quote:" ++ normalizeSymbol symbol) = none)
    (hmC : cache ("crypto:quote:" ++ normalizeSymbol symbol) = none)
    (hlS : oS.length = (enabledStockSources st).length)
    (hlC : oC.length = (enabledCryptoSources st).length)
    (hvS : ValidSchedule oS.length schedS)
    (hvC : ValidSchedule oC.length schedC)
    (hwS : firstSuccess oS schedS.flatten = some qS)
    (hwC : firstSuccess oC schedC.flatten = some qC) :
    (stockGetQuote st cache oS schedS symbol).result = GetQuoteResult.ok qS
    ∧ (∀ m, (stockGetQuote st cache oS schedS symbol).result
          ≠ GetQuoteResult.symbolNotFound m)
    ∧ (cryptoGetQuote st cache oC schedC symbol).result = GetQuoteResult.ok qC
    ∧ (∀ m, (cryptoGetQuote st cache oC schedC symbol).result
          ≠ GetQuoteResult.symbolNotFound m) := by
  have hS := stockGetQuote_won_exec st cache oS schedS symbol qS hmS hlS hvS hwS
  have hC := cryptoGetQuote_won_exec st cache oC schedC symbol qC hmC hlC hvC hwC
  rw [hS, hC]
  refine ⟨rfl, ?_, rfl, ?_⟩
  · intro m h
    exact GetQuoteResult.noConfusion h
  · intro m h
    exact GetQuoteResult.noConfusion h

/-- Concrete instance for c2_first_success_returned: one stock source
winning, and a crypto race where a not-found completes before the
eventual winner. -/
def stQ0 : Settings := ⟨none, none, none, 90, 900⟩

/-- Empty cache used by the concrete instances. -/
def cache0 : String → Option Json := fun _ => none

/-- Concrete stock quote used by the instances. -/
def qS0 : StockQuote :=
  { symbol := "AAPL", price := 1, change := 0, change_percent := 0,
    volume := 0, source := "yahoo", updated_at := 0 }

/-- Concrete crypto quote used by the instances. -/
def qC0 : CryptoQuote :=
  { symbol := "BTC", name := "Bitcoin", price := 2, change_24h := 0,
    change_percent_24h := 0, volume_24h := 0, market_cap := 0,
    source := "binance", updated_at := 0 }

theorem c2_witness :
    cache0 ("stock:quote:" ++ normalizeSymbol "BTC") = none
    ∧ ValidSchedule ([FetchOutcome.notFound, FetchOutcome.ok qC0].length) [[0], [1]]
    ∧ firstSuccess [FetchOutcome.notFound, FetchOutcome.ok qC0] [[0], [1]].flatten = some qC0
    ∧ ((stockGetQuote stQ0 cache0 [FetchOutcome.ok qS0] [[0]] "BTC").result
         = GetQuoteResult.ok qS0
       ∧ (∀ m, (stockGetQuote stQ0 cache0 [FetchOutcome.ok qS0] [[0]] "BTC").result
             ≠ GetQuoteResult.symbolNotFound m)
       ∧ (cryptoGetQuote stQ0 cache0 [FetchOutcome.notFound, FetchOutcome.ok qC0]
             [[0], [1]] "BTC").result = GetQuoteResult.ok qC0
       ∧ (∀ m, (cryptoGetQuote stQ0 cache0 [FetchOutcome.notFound, FetchOutcome.ok qC0]
             [[0], [1]] "BTC").result ≠ GetQuoteResult.symbolNotFound m)) :=
  ⟨rfl, by constructor <;> decide,
   by decide,
   c2_first_success_returned stQ0 cache0 [FetchOutcome.ok qS0]
     [FetchOutcome.notFound, FetchOutcome.ok qC0] [[0]] [[0], [1]] "BTC" qS0 qC0
     rfl rfl (by decide) (by decide) (by constructor <;> decide)
     (by constructor <;> decide) (by decide) (by decide)⟩

/-- C3: for every race concluded by a first success, the single cache
write of the call is the winning quote under the quote key; no other
attempt's quote payload is ever written, and the winner is what the
caller receives. -/
theorem c3_single_writer_per_race
    (st : Settings) (cache : String → Option Json)
    (oS : List (FetchOutcome StockQuote)) (oC : List (FetchOutcome CryptoQuote))
    (schedS schedC : List (List Nat)) (symbol : String)
    (qS : StockQuote) (qC : CryptoQuote)
    (hmS : cache ("stock:quote:" ++ normalizeSymbol symbol) = none)
    (hmC : cache ("crypto:quote:" ++ normalizeSymbol symbol) = none)
    (hlS : oS.length = (enabledStockSources st).length)
    (hlC : oC.length = (enabledCryptoSources st).length)
    (hvS : ValidSchedule oS.length schedS)
    (hvC : ValidSchedule oC.length schedC)
    (hwS : firstSuccess oS schedS.flatten = some qS)
    (hwC : firstSuccess oC schedC.flatten = some qC) :
    ((stockGetQuote st cache oS schedS symbol).cacheWrites
       = [("stock:quote:" ++ normalizeSymbol symbol, st.cache_ttl_seconds,
           dumpStockQuote qS)]
     ∧ (stockGetQuote st cache oS schedS symbol).result = GetQuoteResult.ok qS
     ∧ ∀ q2 : StockQuote,
         ("stock:quote:" ++ normalizeSymbol symbol, st.cache_ttl_seconds,
           dumpStockQuote q2) ∈ (stockGetQuote st cache oS schedS symbol).cacheWrites
         → q2 = qS)
    ∧ ((cryptoGetQuote st cache oC schedC symbol).cacheWrites
       = [("crypto:quote:" ++ normalizeSymbol symbol, st.cache_ttl_seconds,
           dumpCryptoQuote qC)]
     ∧ (cryptoGetQuote st cache oC schedC symbol).result = GetQuoteResult.ok qC
     ∧ ∀ q2 : CryptoQuote,
         ("crypto:quote:" ++ normalizeSymbol symbol, st.cache_ttl_seconds,
           dumpCryptoQuote q2) ∈ (cryptoGetQuote st cache oC schedC symbol).cacheWrites
         → q2 = qC) := by
  have hS := stockGetQuote_won_exec st cache oS schedS symbol qS hmS hlS hvS hwS
  have hC := cryptoGetQuote_won_exec st cache oC schedC symbol qC hmC hlC hvC hwC
  rw [hS, hC]
  refine ⟨⟨rfl, rfl, ?_⟩, ⟨rfl, rfl, ?_⟩⟩
  · intro q2 h
    simp only [List.mem_singleton, Prod.mk.injEq] at h
    exact dumpStockQuote_inj q2 qS h.2.2
  · intro q2 h
    simp only [List.mem_singleton, Prod.mk.injEq] at h
    exact dumpCryptoQuote_inj q2 qC h.2.2

theorem c3_witness :
    cache0 ("stock:quote:" ++ normalizeSymbol "BTC") = none
    ∧ firstSuccess [FetchOutcome.ok qS0] [[0]].flatten = some qS0
    ∧ (((stockGetQuote stQ0 cache0 [FetchOutcome.ok qS0] [[0]] "BTC").cacheWrites
       = [("stock:quote:" ++ normalizeSymbol "BTC", stQ0.cache_ttl_seconds,
           dumpStockQuote qS0)]
     ∧ (stockGetQuote stQ0 cache0 [FetchOutcome.ok qS0] [[0]] "BTC").result
         = GetQuoteResult.ok qS0
     ∧ ∀ q2 : StockQuote,
         ("stock:quote:" ++ normalizeSymbol "BTC", stQ0.cache_ttl_seconds,
           dumpStockQuote q2)
           ∈ (stockGetQuote stQ0 cache0 [FetchOutcome.ok qS0] [[0]] "BTC").cacheWrites
         → q2 = qS0)
    ∧ ((cryptoGetQuote stQ0 cache0 [FetchOutcome.err "boom", FetchOutcome.ok qC0]
          [[1], [0]] "BTC").cacheWrites
       = [("crypto:quote:" ++ normalizeSymbol "BTC", stQ0.cache_ttl_seconds,
           dumpCryptoQuote qC0)]
     ∧ (cryptoGetQuote stQ0 cache0 [FetchOutcome.err "boom", FetchOutcome.ok qC0]
          [[1], [0]] "BTC").result = GetQuoteResult.ok qC0
     ∧ ∀ q2 : CryptoQuote,
         ("crypto:quote:" ++ normalizeSymbol "BTC", stQ0.cache_ttl_seconds,
           dumpCryptoQuote q2)
           ∈ (cryptoGetQuote stQ0 cache0 [FetchOutcome.err "boom", FetchOutcome.ok qC0]
               [[1], [0]] "BTC").cacheWrites
         → q2 = qC0)) :=
  ⟨rfl, by decide,
   c3_single_writer_per_race stQ0 cache0 [FetchOutcome.ok qS0]
     [FetchOutcome.err "boom", FetchOutcome.ok qC0] [[0]] [[1], [0]] "BTC" qS0 qC0
     rfl rfl (by decide) (by decide) (by constructor <;> decide)
     (by constructor <;> decide) (by decide) (by decide)⟩

/-- C4: after a successful resolve and cache write, a second get_quote
for the same symbol while the entry is cached launches no provider,
writes nothing, and returns a quote identical to the first; serializing
with model_dump(mode="json") (None fields excluded by the override) and
rehydrating through the constructor is a round trip. -/
theorem c4_cached_quote_round_trip
    (st : Settings) (cache : String → Option Json)
    (oS oS2 : List (FetchOutcome StockQuote)) (schedS sched2 : List (List Nat))
    (symbol : String) (qS : StockQuote)
    (hmS : cache ("stock:quote:" ++ normalizeSymbol symbol) = none)
    (hlS : oS.length = (enabledStockSources st).length)
    (hvS : ValidSchedule oS.length schedS)
    (hwS : firstSuccess oS schedS.flatten = some qS) :
    (stockGetQuote st cache oS schedS symbol).result = GetQuoteResult.ok qS
    ∧ stockGetQuote st
        (applyWrites cache (stockGetQuote st cache oS schedS symbol).cacheWrites)
        oS2 sched2 symbol
        = ⟨GetQuoteResult.ok qS, ["stock:quote:" ++ normalizeSymbol symbol], [], []⟩
    ∧ parseStockQuote (dumpStockQuote qS) = some qS := by
  have hS := stockGetQuote_won_exec st cache oS schedS symbol qS hmS hlS hvS hwS
  refine ⟨by rw [hS], ?_, parse_dumpStockQuote qS⟩
  rw [hS]
  simp [stockGetQuote, applyWrites_single, parse_dumpStockQuote]

theorem c4_witness :
    cache0 ("stock:quote:" ++ normalizeSymbol "AAPL") = none
    ∧ firstSuccess [FetchOutcome.ok qS0] [[0]].flatten = some qS0
    ∧ ((stockGetQuote stQ0 cache0 [FetchOutcome.ok qS0] [[0]] "AAPL").result
         = GetQuoteResult.ok qS0
       ∧ stockGetQuote stQ0
           (applyWrites cache0
             (stockGetQuote stQ0 cache0 [FetchOutcome.ok qS0] [[0]] "AAPL").cacheWrites)
           [] [] "AAPL"
           = ⟨GetQuoteResult.ok qS0, ["stock:quote:" ++ normalizeSymbol "AAPL"], [], []⟩
       ∧ parseStockQuote (dumpStockQuote qS0) = some qS0) :=
  ⟨rfl, by decide,
   c4_cached_quote_round_trip stQ0 cache0 [FetchOutcome.ok qS0] [] [[0]] [] "AAPL" qS0
     rfl (by decide) (by constructor <;> decide) (by decide)⟩

/-- C7: get_history converts a fetch failure into an empty list without
raising and without caching, in both services; an empty-data fetch
yields the same observable empty result, so the two cases are
indistinguishable to callers. -/
theorem c7_history_failure_yields_empty
    (st : Settings) (cache : String → Option Json) (symbol time_range msg : String)
    (hmS : cache ("stock:history:" ++ normalizeSymbol symbol ++ ":" ++ time_range) = none)
    (hmC : cache ("crypto:history:" ++ normalizeSymbol symbol ++ ":" ++ time_range) = none) :
    (stockGetHistory st cache (HistFetch.failure msg) symbol time_range).result
      = GetHistResult.ok []
    ∧ (stockGetHistory st cache (HistFetch.failure msg) symbol time_range).cacheWrites = []
    ∧ (stockGetHistory st cache (HistFetch.rows []) symbol time_range).result
      = GetHistResult.ok []
    ∧ (cryptoGetHistory st cache (HistFetch.failure msg) symbol time_range).result
      = GetHistResult.ok []
    ∧ (cryptoGetHistory st cache (HistFetch.failure msg) symbol time_range).cacheWrites = []
    ∧ (cryptoGetHistory st cache (HistFetch.rows []) symbol time_range).result
      = GetHistResult.ok [] := by
  refine ⟨?_, ?_, ?_, ?_, ?_, ?_⟩ <;>
    simp [stockGetHistory, cryptoGetHistory, hmS, hmC]

theorem c7_witness :
    cache0 ("stock:history:" ++ normalizeSymbol "AAPL" ++ ":" ++ "1M") = none
    ∧ ((stockGetHistory stQ0 cache0 (HistFetch.failure "boom") "AAPL" "1M").result
        = GetHistResult.ok []
      ∧ (stockGetHistory stQ0 cache0 (HistFetch.failure "boom") "AAPL" "1M").cacheWrites = []
      ∧ (stockGetHistory stQ0 cache0 (HistFetch.rows []) "AAPL" "1M").result
        = GetHistResult.ok []
      ∧ (cryptoGetHistory stQ0 cache0 (HistFetch.failure "boom") "AAPL" "1M").result
        = GetHistResult.ok []
      ∧ (cryptoGetHistory stQ0 cache0 (HistFetch.failure "boom") "AAPL" "1M").cacheWrites = []
      ∧ (cryptoGetHistory stQ0 cache0 (HistFetch.rows []) "AAPL" "1M").result
        = GetHistResult.ok []) :=
  ⟨rfl,
   c7_history_failure_yields_empty stQ0 cache0 "AAPL" "1M" "boom" rfl rfl⟩

/-- C8 evidence: with a malformed payload cached under the quote key,
get_quote propagates the deserialization fault to the caller and
launches no provider at all, in both services; the spec requires the
read to be guarded with a fallback re-fetch instead. -/
theorem c8_corrupt_cache_fault_propagates :
    (stockGetQuote stQ0 (fun _ => some (Json.str "corrupt")) [] [] "AAPL").result
      = GetQuoteResult.deserializationFault
    ∧ (stockGetQuote stQ0 (fun _ => some (Json.str "corrupt")) [] [] "AAPL").providerCalls
      = []
    ∧ (cryptoGetQuote stQ0 (fun _ => some (Json.str "corrupt")) [] [] "BTC").result
      = GetQuoteResult.deserializationFault
    ∧ (cryptoGetQuote stQ0 (fun _ => some (Json.str "corrupt")) [] [] "BTC").providerCalls
      = [] := by
  refine ⟨?_, ?_, ?_, ?_⟩ <;> rfl

/-- C9: get_quote and get_history normalize the symbol by upper-casing
then trimming, and every cache key read or written follows exactly the
quote and history key schemes with the stock and crypto asset-class
tags, built from the normalized symbol. -/
theorem c9_cache_key_schemes
    (st : Settings) (cache : String → Option Json)
    (oS : List (FetchOutcome StockQuote)) (oC : List (FetchOutcome CryptoQuote))
    (schedS schedC : List (List Nat)) (fS : HistFetch PriceHistory)
    (fC : HistFetch CryptoPriceHistory) (symbol time_range : String) :
    (stockGetQuote st cache oS schedS symbol).cacheReads
        = ["stock:quote:" ++ normalizeSymbol symbol]
    ∧ (∀ w ∈ (stockGetQuote st cache oS schedS symbol).cacheWrites,
        w.1 = "stock:quote:" ++ normalizeSymbol symbol)
    ∧ (∀ pc ∈ (stockGetQuote st cache oS schedS symbol).providerCalls,
        pc.2 = normalizeSymbol symbol)
    ∧ (cryptoGetQuote st cache oC schedC symbol).cacheReads
        = ["crypto:quote:" ++ normalizeSymbol symbol]
    ∧ (∀ w ∈ (cryptoGetQuote st cache oC schedC symbol).cacheWrites,
        w.1 = "crypto:quote:" ++ normalizeSymbol symbol)
    ∧ (∀ pc ∈ (cryptoGetQuote st cache oC schedC symbol).providerCalls,
        pc.2 = normalizeSymbol symbol)
    ∧ (stockGetHistory st cache fS symbol time_range).cacheReads
        = ["stock:history:" ++ normalizeSymbol symbol ++ ":" ++ time_range]
    ∧ (∀ w ∈ (stockGetHistory st cache fS symbol time_range).cacheWrites,
        w.1 = "stock:history:" ++ normalizeSymbol symbol ++ ":" ++ time_range)
    ∧ (cryptoGetHistory st cache fC symbol time_range).cacheReads
        = ["crypto:history:" ++ normalizeSymbol symbol ++ ":" ++ time_range]
    ∧ (∀ w ∈ (cryptoGetHistory st cache fC symbol time_range).cacheWrites,
        w.1 = "crypto:history:" ++ normalizeSymbol symbol ++ ":" ++ time_range) :=
  ⟨stockGetQuote_cacheReads st cache oS schedS symbol,
   stockGetQuote_write_keys st cache oS schedS symbol,
   stockGetQuote_call_symbols st cache oS schedS symbol,
   cryptoGetQuote_cacheReads st cache oC schedC symbol,
   cryptoGetQuote_write_keys st cache oC schedC symbol,
   cryptoGetQuote_call_symbols st cache oC schedC symbol,
   stockGetHistory_cacheReads st cache fS symbol time_range,
   stockGetHistory_write_keys st cache fS symbol time_range,
   cryptoGetHistory_cacheReads st cache fC symbol time_range,
   cryptoGetHistory_write_keys st cache fC symbol time_range⟩

/-- C1: on a cache miss where every launched provider attempt fails, the
resolver raises SymbolNotFound when at least one attempt reported
not-found, even if the others failed transiently; otherwise it raises
the exhaustion error (AllSourcesExhaustedError for crypto,
StockServiceError for stock) whose message aggregates the per-provider
failure messages, one entry per failed attempt in completion order. -/
theorem c1_all_fail_error_classification
    (st : Settings) (cache : String → Option Json)
    (oS : List (FetchOutcome StockQuote)) (oC : List (FetchOutcome CryptoQuote))
    (schedS schedC : List (List Nat)) (symbol : String)
    (hmS : cache ("stock:quote:" ++ normalizeSymbol symbol) = none)
    (hmC : cache ("crypto:quote:" ++ normalizeSymbol symbol) = none)
    (hlS : oS.length = (enabledStockSources st).length)
    (hlC : oC.length = (enabledCryptoSources st).length)
    (hvS : ValidSchedule oS.length schedS)
    (hvC : ValidSchedule oC.length schedC)
    (hnsS : firstSuccess oS schedS.flatten = none)
    (hnsC : firstSuccess oC schedC.flatten = none) :
    ((anyNF oS schedS.flatten = true →
        (stockGetQuote st cache oS schedS symbol).result
          = GetQuoteResult.symbolNotFound
              ("Symbol " ++ normalizeSymbol symbol ++ " not found in any source"))
     ∧ (anyNF oS schedS.flatten = false →
        ∃ errs : List String,
          (stockGetQuote st cache oS schedS symbol).result
            = GetQuoteResult.exhausted
                ("All data sources failed for " ++ normalizeSymbol symbol ++ ": "
                  ++ String.intercalate "; " errs) errs
          ∧ errs.length = oS.length ∧ ErrsSpec oS schedS.flatten errs))
    ∧ ((anyNF oC schedC.flatten = true →
        (cryptoGetQuote st cache oC schedC symbol).result
          = GetQuoteResult.symbolNotFound
              ("Symbol " ++ normalizeSymbol symbol ++ " not found in any source"))
     ∧ (anyNF oC schedC.flatten = false →
        ∃ errs : List String,
          (cryptoGetQuote st cache oC schedC symbol).result
            = GetQuoteResult.exhausted
                ("All data sources failed for " ++ normalizeSymbol symbol ++ ": "
                  ++ String.intercalate "; " errs) errs
          ∧ errs.length = oC.length ∧ ErrsSpec oC schedC.flatten errs)) := by
  obtain ⟨labS, hlabS, hrunS⟩ :=
    stockGetQuote_failed_exec st cache oS schedS symbol hmS hlS hvS hnsS
  obtain ⟨labC, hlabC, hrunC⟩ :=
    cryptoGetQuote_failed_exec st cache oC schedC symbol hmC hlC hvC hnsC
  have hflS : schedS.flatten.length = oS.length := flatten_length_of_valid hvS
  have hflC : schedC.flatten.length = oC.length := flatten_length_of_valid hvC
  constructor
  · constructor
    · intro hnf
      rw [hnf] at hrunS
      simp only [if_true] at hrunS
      rw [hrunS]
    · intro hnf
      rw [hnf] at hrunS
      simp only [Bool.false_eq_true, if_false] at hrunS
      refine ⟨taggedMsgs oS labS schedS.flatten, by rw [hrunS], ?_, ?_⟩
      · have hspec := errsSpec_tagged oS schedS.flatten labS (by rw [hlabS])
          (firstSuccess_none_no_ok oS schedS.flatten hnsS)
        rw [hspec.1, hflS]
      · exact errsSpec_tagged oS schedS.flatten labS (by rw [hlabS])
          (firstSuccess_none_no_ok oS schedS.flatten hnsS)
  · constructor
    · intro hnf
      rw [hnf] at hrunC
      simp only [if_true] at hrunC
      rw [hrunC]
    · intro hnf
      rw [hnf] at hrunC
      simp only [Bool.false_eq_true, if_false] at hrunC
      refine ⟨taggedMsgs oC labC schedC.flatten, by rw [hrunC], ?_, ?_⟩
      · have hspec := errsSpec_tagged oC schedC.flatten labC (by rw [hlabC])
          (firstSuccess_none_no_ok oC schedC.flatten hnsC)
        rw [hspec.1, hflC]
      · exact errsSpec_tagged oC schedC.flatten labC (by rw [hlabC])
          (firstSuccess_none_no_ok oC schedC.flatten hnsC)

/-- Concrete settings with the Alpha Vantage key configured, enabling
two stock sources. -/
def st1 : Settings := ⟨some "k", none, none, 90, 900⟩

/-- Stock outcomes for the c1 instance: both attempts fail transiently. -/
def oS1 : List (FetchOutcome StockQuote) :=
  [FetchOutcome.err "dns", FetchOutcome.err "503"]

/-- Crypto outcomes for the c1 instance: one not-found, one transient. -/
def oC1 : List (FetchOutcome CryptoQuote) :=
  [FetchOutcome.notFound, FetchOutcome.err "timeout"]

theorem c1_witness :
    anyNF oC1 ([[0], [1]] : List (List Nat)).flatten = true
    ∧ anyNF oS1 ([[1], [0]] : List (List Nat)).flatten = false
    ∧ ((anyNF oS1 ([[1], [0]] : List (List Nat)).flatten = false →
        ∃ errs : List String,
          (stockGetQuote st1 cache0 oS1 [[1], [0]] "AAPL").result
            = GetQuoteResult.exhausted
                ("All data sources failed for " ++ normalizeSymbol "AAPL" ++ ": "
                  ++ String.intercalate "; " errs) errs
          ∧ errs.length = oS1.length
          ∧ ErrsSpec oS1 ([[1], [0]] : List (List Nat)).flatten errs)
       ∧ (anyNF oC1 ([[0], [1]] : List (List Nat)).flatten = true →
          (cryptoGetQuote st1 cache0 oC1 [[0], [1]] "AAPL").result
            = GetQuoteResult.symbolNotFound
                ("Symbol " ++ normalizeSymbol "AAPL" ++ " not found in any source"))) :=
  ⟨by decide, by decide,
   (c1_all_fail_error_classification st1 cache0 oS1 oC1
      [[1], [0]] [[0], [1]] "AAPL" rfl rfl (by decide) (by decide)
      (by constructor <;> decide) (by constructor <;> decide)
      (by decide) (by decide)).1.2,
   (c1_all_fail_error_classification st1 cache0 oS1 oC1
      [[1], [0]] [[0], [1]] "AAPL" rfl rfl (by decide) (by decide)
      (by constructor <;> decide) (by constructor <;> decide)
      (by decide) (by decide)).2.1⟩

theorem length_filterMap_eq_length_filter {α β : Type} (f : α → Option β)
    (p : α → Bool) (hfp : ∀ a, (f a).isSome = p a) :
    ∀ l : List α, (l.filterMap f).length = (l.filter p).length := by
  intro l
  induction l with
  | nil => rfl
  | cons a rest ih =>
    cases hfa : f a with
    | none =>
      have hp : p a = false := by rw [← hfp a, hfa]; rfl
      simp [List.filterMap_cons, List.filter_cons, hfa, hp, ih]
    | some b =>
      have hp : p a = true := by rw [← hfp a, hfa]; rfl
      simp [List.filterMap_cons, List.filter_cons, hfa, hp, ih]

/-- C5: batch quote resolution never surfaces a per-symbol failure: one
get_quote runs per requested symbol, the result has exactly one quote
per resolved symbol in request order, failed symbols are omitted, and a
crypto bulk request for AAA and BBB whose response contains only AAA
yields exactly one quote, for AAA, without an exception. -/
theorem c5_batch_best_effort
    (st : Settings) (symbols : List String) (envs : Nat → SymbolEnv StockQuote) :
    ((stockGetBatchQuotes st symbols envs).runs.length = symbols.length
     ∧ (∀ i, i < symbols.length →
         (stockGetBatchQuotes st symbols envs).runs[i]?
           = some (stockGetQuote st (envs i).cache (envs i).outcomes (envs i).sched
               (symbols.getD i "")))
     ∧ (stockGetBatchQuotes st symbols envs).quotes.length
         = ((stockGetBatchQuotes st symbols envs).runs.filter
             (fun e => isOkResult e.result)).length
     ∧ (∀ q : StockQuote, q ∈ (stockGetBatchQuotes st symbols envs).quotes
         ↔ ∃ i, i < symbols.length ∧
             (stockGetQuote st (envs i).cache (envs i).outcomes (envs i).sched
               (symbols.getD i "")).result = GetQuoteResult.ok q))
    ∧ ((cryptoGetBatchQuotes stQ0 7 ["AAA", "BBB"]
          (Except.ok [{ id := "aaa" }]) (fun _ => ⟨cache0, [], []⟩)).quotes
        = [batchQuoteOfCoin "AAA" { id := "aaa" } 7]
      ∧ (batchQuoteOfCoin "AAA" { id := "aaa" } 7).symbol = "AAA") := by
  constructor
  · refine ⟨by simp [stockGetBatchQuotes], ?_, ?_, ?_⟩
    · intro i hi
      simp [stockGetBatchQuotes, List.getElem?_map, List.getElem?_range, hi]
    · simp only [stockGetBatchQuotes]
      refine length_filterMap_eq_length_filter _ _ ?_ _
      intro e
      cases he : e.result <;> simp [isOkResult, he]
    · intro q
      simp only [stockGetBatchQuotes, List.mem_filterMap, List.mem_map,
        List.mem_range]
      constructor
      · rintro ⟨e, ⟨i, hi, rfl⟩, hfe⟩
        refine ⟨i, hi, ?_⟩
        cases he : (stockGetQuote st (envs i).cache (envs i).outcomes
            (envs i).sched (symbols.getD i "")).result <;> rw [he] at hfe <;>
          simp at hfe
        rw [hfe]
      · rintro ⟨i, hi, hok⟩
        refine ⟨stockGetQuote st (envs i).cache (envs i).outcomes (envs i).sched
          (symbols.getD i ""), ⟨i, hi, rfl⟩, ?_⟩
        rw [hok]
  · exact ⟨by decide, by decide⟩

theorem c5_witness :
    (stockGetBatchQuotes stQ0 ["GOOD", "BAD"]
        (fun i => if i = 0 then ⟨cache0, [FetchOutcome.ok qS0], [[0]]⟩
                  else ⟨cache0, [FetchOutcome.err "down"], [[0]]⟩)).runs.length
      = (["GOOD", "BAD"] : List String).length
    ∧ ((cryptoGetBatchQuotes stQ0 7 ["AAA", "BBB"]
          (Except.ok [{ id := "aaa" }]) (fun _ => ⟨cache0, [], []⟩)).quotes
        = [batchQuoteOfCoin "AAA" { id := "aaa" } 7]
      ∧ (batchQuoteOfCoin "AAA" { id := "aaa" } 7).symbol = "AAA")
    ∧ (stockGetBatchQuotes stQ0 ["GOOD", "BAD"]
        (fun i => if i = 0 then ⟨cache0, [FetchOutcome.ok qS0], [[0]]⟩
                  else ⟨cache0, [FetchOutcome.err "down"], [[0]]⟩)).quotes = [qS0] :=
  ⟨(c5_batch_best_effort stQ0 ["GOOD", "BAD"]
      (fun i => if i = 0 then ⟨cache0, [FetchOutcome.ok qS0], [[0]]⟩
                else ⟨cache0, [FetchOutcome.err "down"], [[0]]⟩)).1.1,
   (c5_batch_best_effort stQ0 ["GOOD", "BAD"]
      (fun i => if i = 0 then ⟨cache0, [FetchOutcome.ok qS0], [[0]]⟩
                else ⟨cache0, [FetchOutcome.err "down"], [[0]]⟩)).2,
   by decide⟩

/-- Python dict lookup on the insertion-ordered assoc list. -/
def alLookup (l : List (String × String)) (k : String) : Option String :=
  (l.find? (fun p => p.1 = k)).map (fun p => p.2)

theorem find?_replace_eq (l : List (String × String)) (k v : String) :
    ((l.map (fun p => if p.1 = k then (k, v) else p)).find? (fun p => p.1 = k))
      = if l.any (fun p => p.1 = k) then some (k, v) else none := by
  induction l with
  | nil => simp
  | cons p rest ih =>
    by_cases hp : p.1 = k
    · simp [hp, List.find?_cons, List.any_cons]
    · rw [List.map_cons, if_neg hp, List.any_cons, List.find?_cons]
      have hd : (decide (p.1 = k)) = false := by simp [hp]
      rw [hd, ih, Bool.false_or]

theorem find?_replace_ne (l : List (String × String)) (k v k2 : String)
    (hne : k2 ≠ k) :
    ((l.map (fun p => if p.1 = k then (k, v) else p)).find? (fun p => p.1 = k2))
      = l.find? (fun p => p.1 = k2) := by
  induction l with
  | nil => simp
  | cons p rest ih =>
    by_cases hp : p.1 = k
    · have hk2 : ¬ (k = k2) := fun h => hne h.symm
      have hp2 : ¬ (p.1 = k2) := by rw [hp]; exact hk2
      simp [hp, List.find?_cons, hk2, hp2, ih]
    · simp [hp, List.find?_cons, ih]

theorem alLookup_insertOrReplace (l : List (String × String)) (k v k2 : String) :
    alLookup (insertOrReplace l k v) k2 = if k2 = k then some v else alLookup l k2 := by
  by_cases hk : k2 = k
  · subst hk
    rw [if_pos rfl]
    unfold insertOrReplace alLookup
    cases hany : l.any (fun p => p.1 = k2) with
    | true =>
      rw [if_pos rfl, find?_replace_eq, hany]
      rfl
    | false =>
      rw [if_neg Bool.false_ne_true, List.find?_append]
      have hnone : l.find? (fun p => decide (p.1 = k2)) = none := by
        rw [List.find?_eq_none]
        intro p hp
        simp only [decide_eq_true_eq]
        intro hcontra
        have h2 : l.any (fun p => p.1 = k2) = true :=
          List.any_eq_true.mpr ⟨p, hp, by simp [hcontra]⟩
        rw [hany] at h2
        cases h2
      rw [hnone]
      simp [List.find?_cons]
  · rw [if_neg hk]
    unfold insertOrReplace alLookup
    cases hany : l.any (fun p => p.1 = k) with
    | true => rw [if_pos rfl, find?_replace_ne l k v k2 hk]
    | false =>
      rw [if_neg Bool.false_ne_true, List.find?_append]
      have hk2 : ¬ (k = k2) := fun h => hk h.symm
      have hsingle : ([(k, v)] : List (String × String)).find?
          (fun p => decide (p.1 = k2)) = none := by
        simp [List.find?_cons, hk2]
      rw [hsingle]
      simp

theorem replace_keys (l : List (String × String)) (k v : String) :
    (l.map (fun p => ((if p.1 = k then (k, v) else p) : String × String).1))
      = l.map (fun p => p.1) := by
  induction l with
  | nil => rfl
  | cons p rest ih =>
    by_cases hp : p.1 = k
    · simp [hp, ih]
    · simp [hp, ih]

theorem insertOrReplace_keys_nodup (l : List (String × String)) (k v : String)
    (h : (l.map (fun p => p.1)).Nodup) :
    ((insertOrReplace l k v).map (fun p => p.1)).Nodup := by
  unfold insertOrReplace
  cases hany : l.any (fun p => p.1 = k) with
  | true =>
    simp only [if_true, List.map_map, Function.comp_def]
    rw [replace_keys]
    exact h
  | false =>
    simp only [Bool.false_eq_true, if_false, List.map_append, List.nodup_append]
    refine ⟨h, by simp, ?_⟩
    intro a ha hb
    simp only [List.map_cons, List.map_nil, List.mem_singleton] at hb
    subst hb
    obtain ⟨p, hp, hpk⟩ := List.mem_map.mp ha
    have h2 : l.any (fun p => p.1 = a) = true :=
      List.any_eq_true.mpr ⟨p, hp, by simp [hpk]⟩
    rw [hany] at h2
    cases h2

theorem symbolToId_keys_nodup (symbols : List String) :
    ((symbolToId symbols).map (fun p => p.1)).Nodup := by
  suffices h : ∀ acc : List (String × String), (acc.map (fun p => p.1)).Nodup →
      ((symbols.foldl (fun acc s =>
          insertOrReplace acc (batchCoinId s) (normalizeSymbol s)) acc).map
        (fun p => p.1)).Nodup by
    exact h [] (by simp)
  induction symbols with
  | nil => intro acc h; simpa using h
  | cons s rest ih =>
    intro acc h
    exact ih _ (insertOrReplace_keys_nodup acc (batchCoinId s) (normalizeSymbol s) h)

/-- Normalized symbol of the last requested symbol mapping to a given
provider id. -/
def lastMatchSymbol (symbols : List String) (cid : String) : Option String :=
  (symbols.filter (fun s => batchCoinId s = cid)).getLast?

theorem symbolToId_append_singleton (symbols : List String) (s : String) :
    symbolToId (symbols ++ [s])
      = insertOrReplace (symbolToId symbols) (batchCoinId s) (normalizeSymbol s) := by
  simp [symbolToId, List.foldl_append]

theorem symbolToId_lookup (symbols : List String) (cid : String) :
    alLookup (symbolToId symbols) cid
      = (lastMatchSymbol symbols cid).map normalizeSymbol := by
  induction symbols using List.reverseRecOn with
  | nil => rfl
  | append_singleton symbols s ih =>
    rw [symbolToId_append_singleton, alLookup_insertOrReplace]
    by_cases hs : batchCoinId s = cid
    · simp [lastMatchSymbol, List.filter_append, hs]
    · have hcid : ¬ (cid = batchCoinId s) := fun h => hs h.symm
      simp [lastMatchSymbol, List.filter_append, hs, hcid, ih]

/-- C10: the crypto batch primary path keys requested symbols by their
provider id: the id map has no duplicate ids, each id is valued with the
normalized form of the last requested symbol mapping to it, the bulk
result has at most one quote per id-map entry, a request of BTC and
Bitcoin (both id bitcoin) yields one quote labeled BITCOIN, and an empty
request returns empty with no provider or cache interaction. -/
theorem c10_batch_keyed_by_provider_id
    (symbols : List String) (st : Settings) (now : Nat) (data : List Coin)
    (envs envs0 : Nat → SymbolEnv CryptoQuote) (resp : Except String (List Coin)) :
    ((symbolToId symbols).map (fun p => p.1)).Nodup
    ∧ (∀ cid, alLookup (symbolToId symbols) cid
        = (lastMatchSymbol symbols cid).map normalizeSymbol)
    ∧ (cryptoGetBatchQuotes st now symbols (Except.ok data) envs).quotes.length
        ≤ (symbolToId symbols).length
    ∧ ((cryptoGetBatchQuotes stQ0 11 ["BTC", "Bitcoin"]
          (Except.ok [{ id := "bitcoin" }]) (fun _ => ⟨cache0, [], []⟩)).quotes
        = [batchQuoteOfCoin "BITCOIN" { id := "bitcoin" } 11]
      ∧ (batchQuoteOfCoin "BITCOIN" { id := "bitcoin" } 11).symbol = "BITCOIN"
      ∧ batchCoinId "BTC" = batchCoinId "Bitcoin")
    ∧ cryptoGetBatchQuotes st now [] resp envs0 = ⟨[], [], [], []⟩ := by
  refine ⟨symbolToId_keys_nodup symbols,
    fun cid => symbolToId_lookup symbols cid, ?_,
    ⟨by decide, by decide, by decide⟩, rfl⟩
  cases symbols with
  | nil => simp [cryptoGetBatchQuotes]
  | cons s rest =>
    simp only [cryptoGetBatchQuotes, cryptoFetchCoingeckoBatch, List.isEmpty_cons,
      Bool.false_eq_true, if_false]
    rw [List.length_map]
    exact List.length_filterMap_le _ _

/-- Execution record of the crypto batch bulk-success path. -/
theorem cryptoGetBatchQuotes_ok (st : Settings) (now : Nat) (symbols : List String)
    (data : List Coin) (envs : Nat → SymbolEnv CryptoQuote) (hne : symbols ≠ []) :
    cryptoGetBatchQuotes st now symbols (Except.ok data) envs =
      ⟨((symbolToId symbols).filterMap (fun p =>
          (idToCoin data p.1).map
            (fun coin => (p.2, batchQuoteOfCoin p.2 coin now)))).map (fun r => r.2),
       [symbols.map batchCoinId],
       ((symbolToId symbols).filterMap (fun p =>
          (idToCoin data p.1).map
            (fun coin => (p.2, batchQuoteOfCoin p.2 coin now)))).map (fun r =>
              ("crypto:quote:" ++ r.1, st.cache_ttl_seconds, dumpCryptoQuote r.2)),
       []⟩ := by
  cases symbols with
  | nil => exact absurd rfl hne
  | cons s rest => rfl

/-- Execution record of the crypto batch fallback path. -/
theorem cryptoGetBatchQuotes_error (st : Settings) (now : Nat) (symbols : List String)
    (e : String) (envs : Nat → SymbolEnv CryptoQuote) (hne : symbols ≠ []) :
    cryptoGetBatchQuotes st now symbols (Except.error e) envs =
      ⟨((List.range symbols.length).map (fun i =>
          cryptoGetQuote st (envs i).cache (envs i).outcomes (envs i).sched
            (symbols.getD i ""))).filterMap (fun ex =>
          match ex.result with
          | GetQuoteResult.ok q2 => some q2
          | _ => none),
       [symbols.map batchCoinId], [],
       (List.range symbols.length).map (fun i =>
          cryptoGetQuote st (envs i).cache (envs i).outcomes (envs i).sched
            (symbols.getD i ""))⟩ := by
  cases symbols with
  | nil => exact absurd rfl hne
  | cons s rest => rfl

/-- Every resolved pair of the bulk path is labeled by the symbol its
quote carries. -/
theorem resolved_symbol_eq (symbols : List String) (data : List Coin) (now : Nat) :
    ∀ r ∈ (symbolToId symbols).filterMap (fun p =>
        (idToCoin data p.1).map (fun coin => (p.2, batchQuoteOfCoin p.2 coin now))),
      (r.2 : CryptoQuote).symbol = r.1 := by
  intro r hr
  obtain ⟨p, _, hp⟩ := List.mem_filterMap.mp hr
  cases hc : idToCoin data p.1 with
  | none => rw [hc] at hp; cases hp
  | some coin =>
    rw [hc] at hp
    have hp2 : (p.2, batchQuoteOfCoin p.2 coin now) = r := by simpa using hp
    rw [← hp2]
    rfl

/-- The labels of the resolved pairs form a sublist of the id-map values. -/
theorem resolved_fst_sublist (symbols : List String) (data : List Coin) (now : Nat) :
    (((symbolToId symbols).filterMap (fun p =>
        (idToCoin data p.1).map
          (fun coin => (p.2, batchQuoteOfCoin p.2 coin now)))).map (fun r => r.1)).Sublist
      ((symbolToId symbols).map (fun p => p.2)) := by
  induction symbolToId symbols with
  | nil => simp
  | cons p rest ih =>
    cases hc : idToCoin data p.1 with
    | none =>
      simp only [List.filterMap_cons, hc, Option.map_none, List.map_cons]
      exact ih.cons p.2
    | some coin =>
      simp only [List.filterMap_cons, hc, Option.map_some, List.map_cons]
      exact ih.cons₂ p.2

theorem string_append_left_injective (a : String) :
    Function.Injective (fun s => a ++ s) := by
  intro x y h
  have h2 : (a ++ x).data = (a ++ y).data := congrArg String.data h
  rw [String.data_append, String.data_append] at h2
  exact String.ext (List.append_cancel_left h2)

theorem applyWrites_not_mem (ws : List (String × Nat × Json)) :
    ∀ (cache : String → Option Json) (k : String),
      k ∉ ws.map (fun w => w.1) → applyWrites cache ws k = cache k := by
  induction ws with
  | nil => intro cache k _; rfl
  | cons w rest ih =>
    intro cache k hk
    simp only [List.map_cons, List.mem_cons, not_or] at hk
    simp only [applyWrites]
    rw [ih _ k hk.2]
    rw [if_neg hk.1]

theorem applyWrites_of_mem_nodup (ws : List (String × Nat × Json)) :
    ∀ (cache : String → Option Json) (k : String) (t : Nat) (p : Json),
      (ws.map (fun w => w.1)).Nodup → (k, t, p) ∈ ws →
      applyWrites cache ws k = some p := by
  induction ws with
  | nil => intro cache k t p _ hmem; cases hmem
  | cons w rest ih =>
    intro cache k t p hnd hmem
    simp only [List.map_cons, List.nodup_cons] at hnd
    rcases List.mem_cons.mp hmem with rfl | hmem2
    · simp only [applyWrites]
      have hnot : k ∉ rest.map (fun w => w.1) := hnd.1
      rw [applyWrites_not_mem rest _ k hnot]
      simp
    · have hk : (k, t, p).1 ∈ rest.map (fun w => w.1) :=
        List.mem_map.mpr ⟨(k, t, p), hmem2, rfl⟩
      simp only [applyWrites]
      exact ih _ k t p hnd.2 hmem2

/-- C6: the bulk primary path of crypto batch resolution issues exactly
one provider call covering the whole requested set, never consults the
cache or the per-symbol environments, writes each resolved quote
individually under its single-symbol cache key (so a later single-symbol
get_quote for it hits cache and calls no provider), and on any bulk
exception falls back to one concurrent get_quote race per symbol. -/
theorem c6_bulk_batch_path
    (st : Settings) (now : Nat) (symbols : List String) (data : List Coin)
    (envs envs2 : Nat → SymbolEnv CryptoQuote) (e : String)
    (cache : String → Option Json) (o2 : List (FetchOutcome CryptoQuote))
    (s2 : List (List Nat)) (raw : String) (q : CryptoQuote)
    (hne : symbols ≠ []) :
    (cryptoGetBatchQuotes st now symbols (Except.ok data) envs
       = cryptoGetBatchQuotes st now symbols (Except.ok data) envs2)
    ∧ (cryptoGetBatchQuotes st now symbols (Except.ok data) envs).bulkCalls
        = [symbols.map batchCoinId]
    ∧ (cryptoGetBatchQuotes st now symbols (Except.ok data) envs).cacheWrites
        = (cryptoGetBatchQuotes st now symbols (Except.ok data) envs).quotes.map
            (fun q2 => ("crypto:quote:" ++ q2.symbol, st.cache_ttl_seconds,
              dumpCryptoQuote q2))
    ∧ (((symbolToId symbols).map (fun p => p.2)).Nodup →
       q ∈ (cryptoGetBatchQuotes st now symbols (Except.ok data) envs).quotes →
       normalizeSymbol raw = q.symbol →
       cryptoGetQuote st
         (applyWrites cache
           (cryptoGetBatchQuotes st now symbols (Except.ok data) envs).cacheWrites)
         o2 s2 raw
         = ⟨GetQuoteResult.ok q, ["crypto:quote:" ++ q.symbol], [], []⟩)
    ∧ ((cryptoGetBatchQuotes st now symbols (Except.error e) envs).fallbackRuns.length
        = symbols.length)
    ∧ (∀ i, i < symbols.length →
        (cryptoGetBatchQuotes st now symbols (Except.error e) envs).fallbackRuns[i]?
          = some (cryptoGetQuote st (envs i).cache (envs i).outcomes (envs i).sched
              (symbols.getD i "")))
    ∧ (cryptoGetBatchQuotes st now symbols (Except.error e) envs).quotes
        = (cryptoGetBatchQuotes st now symbols (Except.error e) envs).fallbackRuns.filterMap
            (fun ex =>
              match ex.result with
              | GetQuoteResult.ok q2 => some q2
              | _ => none) := by
  have hok := cryptoGetBatchQuotes_ok st now symbols data envs hne
  have hok2 := cryptoGetBatchQuotes_ok st now symbols data envs2 hne
  have herr := cryptoGetBatchQuotes_error st now symbols e envs hne
  refine ⟨by rw [hok, hok2], by rw [hok], ?_, ?_, ?_, ?_, ?_⟩
  · rw [hok]
    simp only [List.map_map]
    apply List.map_congr_left
    intro r hr
    have hsym := resolved_symbol_eq symbols data now r hr
    simp only [Function.comp_def, hsym]
  · intro hval hq hraw
    rw [hok] at hq ⊢
    simp only at hq ⊢
    obtain ⟨r, hrmem, hr2⟩ := List.mem_map.mp hq
    have hsym : r.1 = q.symbol := by
      rw [← hr2]
      exact (resolved_symbol_eq symbols data now r hrmem).symm
    have hw : ("crypto:quote:" ++ q.symbol, st.cache_ttl_seconds, dumpCryptoQuote q)
        ∈ ((symbolToId symbols).filterMap (fun p =>
            (idToCoin data p.1).map
              (fun coin => (p.2, batchQuoteOfCoin p.2 coin now)))).map (fun r2 =>
                ("crypto:quote:" ++ r2.1, st.cache_ttl_seconds, dumpCryptoQuote r2.2)) :=
      List.mem_map.mpr ⟨r, hrmem, by rw [hsym, hr2]⟩
    have h1 : (((symbolToId symbols).filterMap (fun p =>
        (idToCoin data p.1).map
          (fun coin => (p.2, batchQuoteOfCoin p.2 coin now)))).map (fun r2 => r2.1)).Nodup :=
      List.Nodup.sublist (resolved_fst_sublist symbols data now) hval
    have hkeys : ((((symbolToId symbols).filterMap (fun p =>
        (idToCoin data p.1).map
          (fun coin => (p.2, batchQuoteOfCoin p.2 coin now)))).map (fun r2 =>
            ("crypto:quote:" ++ r2.1, st.cache_ttl_seconds, dumpCryptoQuote r2.2))).map
          (fun w => w.1)).Nodup := by
      simp only [List.map_map, Function.comp_def]
      have h2 := List.Nodup.map (string_append_left_injective "crypto:quote:") h1
      simpa [List.map_map, Function.comp_def] using h2
    have hget := applyWrites_of_mem_nodup _ cache ("crypto:quote:" ++ q.symbol)
      st.cache_ttl_seconds (dumpCryptoQuote q) hkeys hw
    simp only [cryptoGetQuote, hraw]
    rw [hget]
    simp [parse_dumpCryptoQuote]
  · rw [herr]
    simp
  · intro i hi
    rw [herr]
    simp [List.getElem?_map, List.getElem?_range, hi]
  · rw [herr]

/-- Concrete bulk-response coin used by the c6 instance. -/
def coinB : Coin := { id := "bitcoin" }

theorem c6_witness :
    (["BTC"] : List String) ≠ []
    ∧ ((symbolToId ["BTC"]).map (fun p => p.2)).Nodup
    ∧ batchQuoteOfCoin "BTC" coinB 5
        ∈ (cryptoGetBatchQuotes stQ0 5 ["BTC"] (Except.ok [coinB])
            (fun _ => ⟨cache0, [], []⟩)).quotes
    ∧ normalizeSymbol "BTC" = (batchQuoteOfCoin "BTC" coinB 5).symbol
    ∧ cryptoGetQuote stQ0
        (applyWrites cache0
          (cryptoGetBatchQuotes stQ0 5 ["BTC"] (Except.ok [coinB])
            (fun _ => ⟨cache0, [], []⟩)).cacheWrites)
        [] [] "BTC"
        = ⟨GetQuoteResult.ok (batchQuoteOfCoin "BTC" coinB 5),
           ["crypto:quote:" ++ (batchQuoteOfCoin "BTC" coinB 5).symbol], [], []⟩ :=
  ⟨by decide, by decide, by decide, by decide,
   (c6_bulk_batch_path stQ0 5 ["BTC"] [coinB] (fun _ => ⟨cache0, [], []⟩)
      (fun _ => ⟨cache0, [], []⟩) "" cache0 [] [] "BTC"
      (batchQuoteOfCoin "BTC" coinB 5) (by decide)).2.2.2.1
     (by decide) (by decide) (by decide)⟩

theorem c9_witness :
    (stockGetQuote stQ0 cache0 [] [] "aapl").cacheReads
      = ["stock:quote:" ++ normalizeSymbol "aapl"]
    ∧ (cryptoGetQuote stQ0 cache0 [] [] "aapl").cacheReads
      = ["crypto:quote:" ++ normalizeSymbol "aapl"]
    ∧ (stockGetHistory stQ0 cache0 (HistFetch.failure "x") "aapl" "1D").cacheReads
      = ["stock:history:" ++ normalizeSymbol "aapl" ++ ":" ++ "1D"]
    ∧ (cryptoGetHistory stQ0 cache0 (HistFetch.failure "x") "aapl" "1D").cacheReads
      = ["crypto:history:" ++ normalizeSymbol "aapl" ++ ":" ++ "1D"] :=
  ⟨(c9_cache_key_schemes stQ0 cache0 [] [] [] [] (HistFetch.failure "x")
      (HistFetch.failure "x") "aapl" "1D").1,
   (c9_cache_key_schemes stQ0 cache0 [] [] [] [] (HistFetch.failure "x")
      (HistFetch.failure "x") "aapl" "1D").2.2.2.1,
   (c9_cache_key_schemes stQ0 cache0 [] [] [] [] (HistFetch.failure "x")
      (HistFetch.failure "x") "aapl" "1D").2.2.2.2.2.2.1,
   (c9_cache_key_schemes stQ0 cache0 [] [] [] [] (HistFetch.failure "x")
      (HistFetch.failure "x") "aapl" "1D").2.2.2.2.2.2.2.2.1⟩

theorem c10_witness :
    ((symbolToId ["BTC", "Bitcoin"]).map (fun p => p.1)).Nodup
    ∧ ((cryptoGetBatchQuotes stQ0 11 ["BTC", "Bitcoin"]
          (Except.ok [{ id := "bitcoin" }]) (fun _ => ⟨cache0, [], []⟩)).quotes
        = [batchQuoteOfCoin "BITCOIN" { id := "bitcoin" } 11]
      ∧ (batchQuoteOfCoin "BITCOIN" { id := "bitcoin" } 11).symbol = "BITCOIN"
      ∧ batchCoinId "BTC" = batchCoinId "Bitcoin")
    ∧ cryptoGetBatchQuotes stQ0 11 [] (Except.ok []) (fun _ => ⟨cache0, [], []⟩)
        = ⟨[], [], [], []⟩ :=
  ⟨(c10_batch_keyed_by_provider_id ["BTC", "Bitcoin"] stQ0 11 []
      (fun _ => ⟨cache0, [], []⟩) (fun _ => ⟨cache0, [], []⟩) (Except.ok [])).1,
   (c10_batch_keyed_by_provider_id ["BTC", "Bitcoin"] stQ0 11 []
      (fun _ => ⟨cache0, [], []⟩) (fun _ => ⟨cache0, [], []⟩) (Except.ok [])).2.2.2.1,
   (c10_batch_keyed_by_provider_id ["BTC", "Bitcoin"] stQ0 11 []
      (fun _ => ⟨cache0, [], []⟩) (fun _ => ⟨cache0, [], []⟩) (Except.ok [])).2.2.2.2⟩
